import Mathlib

/-!
# sgt: routing table and command-line driver

A shallow embedding of `sgt.go`: the routing table built by `server()` (its
gorilla/mux routes and negroni middleware stacks) and the flag-driven control
flow of `main()`. The handlers that the routes lead to are in other packages; of
these, the result submission behind `/distributed/write` is modelled after its
specification. Definitions come first, facts about them after.
-/

namespace Sgt

/-! ## Path templates of gorilla/mux -/

/-- One piece of a mux path template: literal text, or a `{name}` variable. -/
inductive Part
  | lit (s : String)
  | var (name : String)
  deriving DecidableEq, Repr

/-- A path template such as `/nodes/{node_key}/approve`. -/
abbrev Template := List Part

/-- Matching of the regular expression mux compiles a template into, against the
characters of the path that are left: literal text must be next, a variable is
`[^/]+`, and the end is `$` for `Path` (`exact`) and open for `PathPrefix`. -/
def matchParts (exact : Bool) : Template → List Char → Bool
  | [], s => if exact then s.isEmpty else true
  | Part.lit l :: ps, s =>
      l.data.isPrefixOf s && matchParts exact ps (s.drop l.data.length)
  | Part.var _ :: ps, s =>
      (List.range s.length).any fun k =>
        (s.take (k + 1)).all (fun c => c != '/') && matchParts exact ps (s.drop (k + 1))

/-- The text of a template as it is written in the source. -/
def Template.render : Template → String
  | [] => ""
  | Part.lit l :: ps => l ++ Template.render ps
  | Part.var n :: ps => "\x7b" ++ n ++ "\x7d" ++ Template.render ps

/-! ## Path cleaning of gorilla/mux -/

/-- The elements of a path: the pieces between its slashes, empty pieces included. -/
def pathElems : List Char → List (List Char)
  | [] => [[]]
  | c :: cs =>
      if c = '/' then [] :: pathElems cs
      else
        match pathElems cs with
        | [] => [[c]]
        | e :: es => (c :: e) :: es

/-- The elements that `path.Clean` keeps of a rooted path, `kept` being those kept so far,
last one first: empty elements and `.` are dropped, `..` drops the element before it when
there is one, every other element is kept. -/
def cleanElems (kept : List (List Char)) : List (List Char) → List (List Char)
  | [] => kept.reverse
  | e :: es =>
      if e = [] ∨ e = ['.'] then cleanElems kept es
      else if e = ['.', '.'] then cleanElems kept.tail es
      else cleanElems (e :: kept) es

/-- The function `path.Clean` of the Go library on a rooted path: a slash and the kept
elements with one slash between them. -/
def pathClean (p : List Char) : List Char :=
  '/' :: List.intercalate ['/'] (cleanElems [] (pathElems p))

/-- The function `cleanPath` of mux: the empty path is `/`, a path is made rooted and
cleaned by `path.Clean`, and the trailing slash that cleaning removed is put back. -/
def cleanPath (p : String) : String :=
  if p.data = [] then "/"
  else
    let q := if p.data.head? = some '/' then p.data else '/' :: p.data
    let np := pathClean q
    if q.getLast? = some '/' ∧ np ≠ ['/'] then String.mk (np ++ ['/']) else String.mk np

/-! ## Handlers and middleware named in `server()` -/

/-- The handler functions that `server()` registers. -/
inductive HandlerFunc
  | NodeConfigureRequest
  | NodeEnrollRequest
  | GetNamedConfigs
  | ConfigurationRequest
  | GetNodes
  | ConfigureNode
  | ApproveNode
  | GetQueryPacks
  | SearchQueryPacks
  | ConfigurePack
  | GetPackQueries
  | ConfigurePackQuery
  | SearchPackQueries
  | DistributedQueryAdd
  | GetTokenHandler
  | DistributedQueryRead
  | DistributedQueryWrite
  deriving DecidableEq, Repr

/-- The credential checks of package `auth` used as negroni middleware. -/
inductive AuthFunc
  | AnotherValidation
  | ValidNodeKey
  deriving DecidableEq, Repr

/-- An HTTP request, as far as routing looks at it. -/
structure Request where
  method : String
  path : String
  deriving DecidableEq, Repr

/-- A route of a router: `Path(tpl)` when `exact`, `PathPrefix(tpl)` otherwise,
an optional `Methods(...)` matcher (empty list: none), and the handler function. -/
structure Route where
  tpl : Template
  exact : Bool
  methods : List String
  handler : HandlerFunc
  deriving DecidableEq, Repr

/-- A router obtained by `PathPrefix(base).Subrouter()`: the templates of its routes
are appended to `base`. -/
structure Subrouter where
  base : Template
  routes : List Route
  deriving DecidableEq, Repr

/-- A handler of a negroni stack. -/
inductive NegroniHandler
  | NewRecovery
  | HandlerFunc (f : AuthFunc)
  | Wrap (r : Subrouter)
  deriving DecidableEq, Repr

/-- What a route of the top router leads to. -/
inductive Target
  | HandlerFunc (h : HandlerFunc)
  | Subrouter (r : Subrouter)
  | Handler (n : List NegroniHandler)
  deriving DecidableEq, Repr

/-- A route of the top router. -/
structure TopRoute where
  tpl : Template
  exact : Bool
  target : Target
  deriving DecidableEq, Repr

/-- What is observed while one request is served: the recovery middleware running, a
credential check running and whether it accepted the request (and so called the next
handler), a handler function of a route being called, `notFound` when a router matched
no route and answered itself, and `redirect` when a router answered a path that is not
clean with a redirect to the cleaned path; in the last two no handler function is
called. -/
inductive Event
  | recovery
  | auth (f : AuthFunc) (accepted : Bool)
  | handler (h : HandlerFunc)
  | notFound
  | redirect
  deriving DecidableEq, Repr

/-- The `Methods(...)` matcher. -/
def methodOk (methods : List String) (req : Request) : Bool :=
  methods.isEmpty || methods.contains req.method

/-- Does a route of a subrouter match the request. -/
def Route.matches (base : Template) (req : Request) (r : Route) : Bool :=
  matchParts r.exact (base ++ r.tpl) req.path.data && methodOk r.methods req

/-- The first route of the subrouter that matches, as `Router.Match` finds it. -/
def Subrouter.Match (sr : Subrouter) (req : Request) : Option HandlerFunc :=
  (sr.routes.find? (Route.matches sr.base req)).map Route.handler

/-- The handler that `Router.Match` leaves for a request: the handler function of the
matched route, or the answer of the router itself when no route matches. -/
def Subrouter.matched (sr : Subrouter) (req : Request) : List Event :=
  match sr.Match req with
  | some h => [Event.handler h]
  | none => [Event.notFound]

/-- The method `ServeHTTP` of a router whose routes are handler functions: a path that is
not clean is answered with a redirect, any other request goes to the matched handler. -/
def Subrouter.ServeHTTP (sr : Subrouter) (req : Request) : List Event :=
  if cleanPath req.path ≠ req.path then [Event.redirect]
  else sr.matched req

/-- A negroni stack: each handler runs and decides whether the next one runs.
Recovery always calls the next handler; a wrapped `http.Handler` is served and the
next handler called; a credential check calls the next handler when it accepts. -/
def negroniServe (accepts : AuthFunc → Request → Bool) (req : Request) :
    List NegroniHandler → List Event
  | [] => []
  | NegroniHandler.NewRecovery :: rest => Event.recovery :: negroniServe accepts req rest
  | NegroniHandler.HandlerFunc f :: rest =>
      if accepts f req then Event.auth f true :: negroniServe accepts req rest
      else [Event.auth f false]
  | NegroniHandler.Wrap r :: rest => r.ServeHTTP req ++ negroniServe accepts req rest

/-- Does a route of the top router match: its path matcher, and for a subrouter
also one of the subrouter's routes. -/
def TopRoute.matches (req : Request) (r : TopRoute) : Bool :=
  matchParts r.exact r.tpl req.path.data &&
    match r.target with
    | Target.Subrouter sr => (sr.Match req).isSome
    | _ => true

/-- Running what a matched route of the top router leads to. -/
def Target.serve (accepts : AuthFunc → Request → Bool) (req : Request) : Target → List Event
  | Target.HandlerFunc h => [Event.handler h]
  | Target.Subrouter sr => sr.matched req
  | Target.Handler n => negroniServe accepts req n

/-- The method `ServeHTTP` of the top router: a path that is not clean is answered with a
redirect before any route is tried; otherwise the routes are tried in the order of their
registration, the first one that matches is served, and no match is answered by the
router itself. -/
def ServeHTTP (accepts : AuthFunc → Request → Bool) (routes : List TopRoute)
    (req : Request) : List Event :=
  if cleanPath req.path ≠ req.path then [Event.redirect]
  else
    match routes.find? (TopRoute.matches req) with
    | some r => r.target.serve accepts req
    | none => [Event.notFound]

/-! ## The routing table of `server()` -/

/-- The subrouter `nodeAPI`. -/
def nodeAPI : Subrouter :=
  { base := [Part.lit "/node"],
    routes := [
      ⟨[Part.lit "/configure"], true, [], HandlerFunc.NodeConfigureRequest⟩,
      ⟨[Part.lit "/enroll"], true, [], HandlerFunc.NodeEnrollRequest⟩] }

/-- The subrouter `apiRouter`. -/
def apiRouter : Subrouter :=
  { base := [Part.lit "/api/v1/configuration"],
    routes := [
      ⟨[Part.lit "/configs"], true, ["GET", "POST"], HandlerFunc.GetNamedConfigs⟩,
      ⟨[Part.lit "/configs/", Part.var "config_name"], true, ["POST"],
        HandlerFunc.ConfigurationRequest⟩,
      ⟨[Part.lit "/nodes"], true, ["GET"], HandlerFunc.GetNodes⟩,
      ⟨[Part.lit "/nodes/", Part.var "node_key"], true, ["POST", "GET"],
        HandlerFunc.ConfigureNode⟩,
      ⟨[Part.lit "/nodes/", Part.var "node_key", Part.lit "/approve"], true, ["POST"],
        HandlerFunc.ApproveNode⟩,
      ⟨[Part.lit "/packs"], true, ["GET"], HandlerFunc.GetQueryPacks⟩,
      ⟨[Part.lit "/packs/search/", Part.var "search_string"], true, ["GET"],
        HandlerFunc.SearchQueryPacks⟩,
      ⟨[Part.lit "/packs/", Part.var "pack_name"], true, ["POST"],
        HandlerFunc.ConfigurePack⟩,
      ⟨[Part.lit "/packqueries"], true, ["GET"], HandlerFunc.GetPackQueries⟩,
      ⟨[Part.lit "/packqueries/", Part.var "query_name"], true, [],
        HandlerFunc.ConfigurePackQuery⟩,
      ⟨[Part.lit "/packqueries/search/", Part.var "search_string"], true, [],
        HandlerFunc.SearchPackQueries⟩,
      ⟨[Part.lit "/distributed/add"], true, [], HandlerFunc.DistributedQueryAdd⟩] }

/-- The subrouter `distributedRouter`. -/
def distributedRouter : Subrouter :=
  { base := [Part.lit "/distributed"],
    routes := [
      ⟨[Part.lit "/read"], true, [], HandlerFunc.DistributedQueryRead⟩,
      ⟨[Part.lit "/write"], true, [], HandlerFunc.DistributedQueryWrite⟩] }

/-- The routes of `router`, in the order `server()` registers them. -/
def router : List TopRoute := [
  ⟨[Part.lit "/node"], false, Target.Subrouter nodeAPI⟩,
  ⟨[Part.lit "/api/v1/configuration"], false, Target.Handler [
    NegroniHandler.NewRecovery,
    NegroniHandler.HandlerFunc AuthFunc.AnotherValidation,
    NegroniHandler.Wrap apiRouter]⟩,
  ⟨[Part.lit "/api/v1/get-token"], true, Target.HandlerFunc HandlerFunc.GetTokenHandler⟩,
  ⟨[Part.lit "/distributed"], false, Target.Handler [
    NegroniHandler.NewRecovery,
    NegroniHandler.HandlerFunc AuthFunc.ValidNodeKey,
    NegroniHandler.Wrap distributedRouter]⟩,
  ⟨[Part.lit "/api/v1/configuration"], false, Target.Handler [
    NegroniHandler.NewRecovery,
    NegroniHandler.HandlerFunc AuthFunc.AnotherValidation,
    NegroniHandler.Wrap apiRouter]⟩]

/-- The handler `server()` listens with: `router.ServeHTTP` (the logging handler around it
writes a log line and calls it). -/
def server (accepts : AuthFunc → Request → Bool) (req : Request) : List Event :=
  ServeHTTP accepts router req

/-! ## The driver `main()` -/

/-- The values of the command-line flags after `flag.Parse()`, under the names of the
variables of `main()`. -/
structure Flags where
  credentialsFile : String
  profile : String
  createuser : Bool
  deployFlag : Bool
  vpc : Bool
  datastore : Bool
  elasticsearch : Bool
  firehose : Bool
  s3 : Bool
  autoscaling : Bool
  secrets : Bool
  all : Bool
  environ : String
  username : String
  role : String
  destroy : Bool
  newDeploy : Bool
  wizard : Bool
  packs : Bool
  configs : Bool
  endpoints : Bool
  deriving DecidableEq, Repr

/-- The flags when the command line sets none: the defaults given to package `flag`. -/
def Flags.default : Flags :=
  { credentialsFile := "~/.aws/credentials", profile := "", createuser := false,
    deployFlag := false, vpc := false, datastore := false, elasticsearch := false,
    firehose := false, s3 := false, autoscaling := false, secrets := false, all := false,
    environ := "", username := "", role := "user", destroy := false, newDeploy := false,
    wizard := false, packs := false, configs := false, endpoints := false }

/-- The functions `main()` calls: those of the packages `deploy`, `auth` and `logger`, of
the standard library (`log.Printf`, `fmt.Print`, `flag.Usage`, `os.Exit`, `os.Getwd`,
`ReadString`), `server()`, and the run-time panic of indexing `os.Args` out of range. -/
inductive Fn
  | DeployWizard
  | CreateDeployDirectory
  | NewUser
  | ErrorCheck
  | ParseDeploymentConfig
  | DeployAll
  | VPC
  | Datastore
  | Elasticsearch
  | Firehose
  | S3
  | Secrets
  | Autoscaling
  | DeployDefaultPacks
  | DeployDefaultConfigs
  | GenerateEndpointDeployScripts
  | DestroyAutoscaling
  | DestroySecrets
  | DestroyS3
  | DestroyFirehose
  | DestroyElasticsearch
  | DestroyDatastore
  | DestroyVPC
  | loggerFatal
  | loggerError
  | loggerWarn
  | logPrintf
  | fmtPrint
  | flagUsage
  | osExit
  | osGetwd
  | ReadString
  | server
  | indexOutOfRange
  deriving DecidableEq, Repr

/-- One call made by `main()`, with the string arguments it is given. -/
structure Action where
  fn : Fn
  args : List String
  deriving DecidableEq, Repr

/-- What `main()` meets outside itself: the program arguments, the standard input, the
working directory, which calls return an error, and how the helpers `logger.Fatal` and
`deploy.ErrorCheck`, whose code is in other packages, end: `fatalExits` says that
`logger.Fatal` ends the process, `errorCheckExits` that `deploy.ErrorCheck` ends it when
handed an error. -/
structure World where
  osArgs : List String
  stdin : String
  getwd : String
  getwdErr : Bool
  fails : Fn → Bool
  fatalExits : Bool
  errorCheckExits : Bool

/-- A run of a piece of `main()`: the calls made, and the value it continues with, `none`
when the process ended inside it. -/
structure Run (α : Type) where
  trace : List Action
  val : Option α
  deriving DecidableEq

/-- A piece that only yields a value. -/
def Run.pure {α : Type} (a : α) : Run α := ⟨[], some a⟩

/-- Sequencing: the second piece runs when the first did not end the process. -/
def Run.bind {α β : Type} (m : Run α) (k : α → Run β) : Run β :=
  match m.val with
  | none => ⟨m.trace, none⟩
  | some a => ⟨m.trace ++ (k a).trace, (k a).val⟩

instance : Monad Run where
  pure := Run.pure
  bind := Run.bind

/-- A call whose result `main()` does not look at. -/
def call (fn : Fn) (args : List String) : Run Unit := ⟨[⟨fn, args⟩], some ()⟩

/-- A call that returns an `error`; the value is `err != nil`. -/
def callErr (w : World) (fn : Fn) (args : List String) : Run Bool :=
  ⟨[⟨fn, args⟩], some (w.fails fn)⟩

/-- The call `server()`: it does not return, `http.ListenAndServeTLS` serves until it
fails and `log.Panic` follows it. -/
def serverRun : Run Unit := ⟨[⟨Fn.server, []⟩], none⟩

/-- The call `os.Exit(code)`. -/
def osExit (code : String) : Run Unit := ⟨[⟨Fn.osExit, [code]⟩], none⟩

/-- The call `logger.Fatal(err)`. -/
def loggerFatal (w : World) : Run Unit :=
  ⟨[⟨Fn.loggerFatal, ["err"]⟩], if w.fatalExits then none else some ()⟩

/-- The call `deploy.ErrorCheck(err)`. -/
def ErrorCheck (w : World) (err : Bool) : Run Unit :=
  ⟨[⟨Fn.ErrorCheck, [if err then "err" else "nil"]⟩],
    if err && w.errorCheckExits then none else some ()⟩

/-- The call `os.Getwd()`: the directory, and `err != nil`. -/
def osGetwd (w : World) : Run (String × Bool) :=
  ⟨[⟨Fn.osGetwd, []⟩], some (if w.getwdErr then "" else w.getwd, w.getwdErr)⟩

/-- The method `ReadString` of `bufio.Reader` with delimiter `\n`, on the characters of
the input: the text up to and with the first newline, or all of it and an error when
there is none. -/
def readLine : List Char → List Char × Bool
  | [] => ([], true)
  | c :: cs => if c = '\n' then ([c], false) else ((c :: (readLine cs).1), (readLine cs).2)

/-- The call `reader.ReadString('\n')` on standard input. -/
def ReadString (w : World) : Run (String × Bool) :=
  ⟨[⟨Fn.ReadString, []⟩], some (String.mk (readLine w.stdin.data).1, (readLine w.stdin.data).2)⟩

/-- The builtin `len` on a string: its number of bytes. -/
def len (s : String) : Nat := s.utf8ByteSize

/-- The function `main()`, after `flag.Parse()`. -/
def main (w : World) (f : Flags) : Run Unit :=
  if f.wizard then do
    let err ← callErr w Fn.DeployWizard []
    if err then
      loggerFatal w
  else if f.newDeploy then do
    match w.osArgs with
    | [] => (⟨[⟨Fn.indexOutOfRange, ["os.Args[0]"]⟩], none⟩ : Run Unit)
    | arg0 :: _ =>
      if len arg0 > 0 then do
        let envName := arg0
        if len envName > 0 then do
          let err ← callErr w Fn.CreateDeployDirectory [envName]
          if err then do
            call Fn.loggerError ["err"]
            osExit "1"
      else do
        call Fn.fmtPrint ["Enter new environment name: "]
        let (envName, err) ← ReadString w
        if err then do
          call Fn.loggerError ["err"]
          osExit "1"
        if len envName > 0 then do
          let err ← callErr w Fn.CreateDeployDirectory [envName]
          if err then do
            call Fn.loggerError ["err"]
            osExit "1"
    call Fn.loggerWarn
      ["New deployment created.  Remember to go change the defaults in your $environment.json files!"]
  else if f.createuser || f.deployFlag || f.destroy then
    if f.createuser then do
      if !(len f.username > 4) then do
        call Fn.flagUsage []
        call Fn.loggerError ["username required, please pass username via -username flag"]
        osExit "0"
      if !(len f.credentialsFile > 4) then do
        call Fn.flagUsage []
        call Fn.loggerError
          ["aws credentials file required, please pass via -credentialsFile flag"]
        osExit "0"
      if !(len f.profile > 4) then do
        call Fn.flagUsage []
        call Fn.loggerError ["aws profile name required, please pass via -profile flag"]
        osExit "0"
      call Fn.NewUser [f.credentialsFile, f.profile, f.username, f.role]
    else if f.deployFlag then do
      call Fn.logPrintf
        ["beginning deployment to %s using configuration specified in %s.json",
          f.environ, f.environ]
      call Fn.logPrintf ["Using credentials found in : %s", f.credentialsFile]
      let (curdir, err) ← osGetwd w
      ErrorCheck w err
      call Fn.ParseDeploymentConfig [f.environ]
      if f.all then do
        let err ← callErr w Fn.DeployAll ["config", curdir, f.environ]
        if err then
          loggerFatal w
      else do
        if f.vpc then do
          let err ← callErr w Fn.VPC [curdir, f.environ]
          if err then
            loggerFatal w
        if f.datastore then do
          let err ← callErr w Fn.Datastore [curdir, f.environ]
          if err then
            loggerFatal w
        if f.elasticsearch then do
          let err ← callErr w Fn.Elasticsearch [curdir, f.environ]
          if err then
            loggerFatal w
        if f.firehose then do
          let err ← callErr w Fn.Firehose [curdir, f.environ]
          if err then
            loggerFatal w
        if f.s3 then do
          let err ← callErr w Fn.S3 [curdir, f.environ]
          if err then
            call Fn.loggerError ["err"]
        if f.secrets then do
          let err ← callErr w Fn.Secrets [curdir, f.environ]
          if err then
            call Fn.loggerError ["err"]
        if f.autoscaling then do
          let err ← callErr w Fn.Autoscaling [curdir, f.environ]
          if err then
            call Fn.loggerError ["err"]
        if f.packs then do
          let err ← callErr w Fn.DeployDefaultPacks ["config", f.environ]
          if err then
            call Fn.loggerError ["err"]
        if f.configs then do
          let err ← callErr w Fn.DeployDefaultConfigs ["config", f.environ]
          if err then
            call Fn.loggerError ["err"]
        if f.endpoints then do
          let err ← callErr w Fn.GenerateEndpointDeployScripts ["config", f.environ]
          if err then
            call Fn.loggerError ["err"]
    else if f.destroy then do
      let (curdir, err) ← osGetwd w
      ErrorCheck w err
      if f.all then do
        let err ← callErr w Fn.DestroyAutoscaling [curdir, f.environ]
        if err then
          loggerFatal w
        let err ← callErr w Fn.DestroySecrets [curdir, f.environ]
        if err then
          loggerFatal w
        let err ← callErr w Fn.DestroyS3 [curdir, f.environ]
        if err then
          loggerFatal w
        let err ← callErr w Fn.DestroyFirehose [curdir, f.environ]
        if err then
          loggerFatal w
        let err ← callErr w Fn.DestroyElasticsearch [curdir, f.environ]
        if err then
          loggerFatal w
        let err ← callErr w Fn.DestroyDatastore [curdir, f.environ]
        if err then
          loggerFatal w
        let err ← callErr w Fn.DestroyVPC [curdir, f.environ]
        if err then
          loggerFatal w
      else do
        if f.autoscaling then do
          let err ← callErr w Fn.DestroyAutoscaling [curdir, f.environ]
          if err then
            loggerFatal w
        if f.secrets then do
          let err ← callErr w Fn.DestroySecrets [curdir, f.environ]
          if err then
            loggerFatal w
        if f.s3 then do
          let err ← callErr w Fn.DestroyS3 [curdir, f.environ]
          if err then
            loggerFatal w
        if f.firehose then do
          let err ← callErr w Fn.DestroyFirehose [curdir, f.environ]
          if err then
            loggerFatal w
        if f.elasticsearch then do
          let err ← callErr w Fn.DestroyElasticsearch [curdir, f.environ]
          if err then
            loggerFatal w
        if f.datastore then do
          let err ← callErr w Fn.DestroyDatastore [curdir, f.environ]
          if err then
            loggerFatal w
        if f.vpc then do
          let err ← callErr w Fn.DestroyVPC [curdir, f.environ]
          if err then
            loggerFatal w
    else
      pure ()
  else
    serverRun

/-- The calls of the `-deploy` and `-destroy` actions. -/
def deployDestroyFns : List Fn :=
  [Fn.ParseDeploymentConfig, Fn.DeployAll, Fn.VPC, Fn.Datastore, Fn.Elasticsearch,
    Fn.Firehose, Fn.S3, Fn.Secrets, Fn.Autoscaling, Fn.DeployDefaultPacks,
    Fn.DeployDefaultConfigs, Fn.GenerateEndpointDeployScripts, Fn.DestroyAutoscaling,
    Fn.DestroySecrets, Fn.DestroyS3, Fn.DestroyFirehose, Fn.DestroyElasticsearch,
    Fn.DestroyDatastore, Fn.DestroyVPC]

/-- The seven destroy functions of package `deploy`: autoscaling, secrets, S3, firehose,
elasticsearch, datastore and VPC, in this order. -/
def destroyFns : List Fn :=
  [Fn.DestroyAutoscaling, Fn.DestroySecrets, Fn.DestroyS3, Fn.DestroyFirehose,
    Fn.DestroyElasticsearch, Fn.DestroyDatastore, Fn.DestroyVPC]

/-- The destroy functions called during a run, in the order of the calls. -/
def destroyCalls (r : Run Unit) : List Fn :=
  (r.trace.map Action.fn).filter (fun fn => decide (fn ∈ destroyFns))

/-- The specification's side of the destroy sequence, written after its words: the calls
of a list are made in order, "stopping at the first call that returns an error", so the
calls made are those up to and with the first failing one. -/
def upToFirstError (fails : Fn → Bool) : List Fn → List Fn
  | [] => []
  | c :: cs => if fails c then [c] else c :: upToFirstError fails cs

/-- The flags with `-all` added. -/
def Flags.setAll (f : Flags) : Flags := { f with all := true }

/-- The flags without `-all` and with the seven component flags `-autoscaling`, `-secrets`,
`-s3`, `-firehose`, `-elasticsearch`, `-datastore` and `-vpc` set. -/
def Flags.setComponents (f : Flags) : Flags :=
  { f with
    all := false, autoscaling := true, secrets := true, s3 := true, firehose := true,
    elasticsearch := true, datastore := true, vpc := true }

/-! ## Campaign manager and result aggregator

The handler `distributed.DistributedQueryWrite` that `server()` registers is in package
`handlers/distributed`, whose code is not in `sgt.go`. The definitions of this section
follow the specification of the campaign manager and the result aggregator. -/

/-- Modelled from the spec: the status of a campaign (package `handlers/distributed` is
missing): `Active`, `Complete` or `Closed`. -/
inductive CampaignStatus
  | Active
  | Complete
  | Closed
  deriving DecidableEq, Repr

/-- Modelled from the spec: a campaign target (missing from the sources), one pairing of a
campaign with a node, with the time of delivery and of the first accepted result. -/
structure CampaignTarget where
  node_id : Nat
  delivered_at : Option Nat
  result_received_at : Option Nat
  excluded : Bool
  deriving DecidableEq, Repr

/-- Modelled from the spec: a campaign (missing from the sources), one execution of a
distributed query with its frozen target set. -/
structure Campaign where
  campaign_id : Nat
  query_text : String
  created_by : String
  created_at : Nat
  status : CampaignStatus
  targets : List CampaignTarget
  deriving DecidableEq, Repr

/-- Modelled from the spec: a result row (missing from the sources), the answer of one
node for one campaign: an ordered sequence of mappings from column name to value. -/
structure ResultRow where
  campaign_id : Nat
  node_id : Nat
  rows : List (List (String × String))
  received_at : Nat
  deriving DecidableEq, Repr

/-- Modelled from the spec: the durable store (missing from the sources) of the campaign
manager and of the result aggregator. -/
structure Coordinator where
  campaigns : List Campaign
  results : List ResultRow
  deriving DecidableEq, Repr

/-- Modelled from the spec: the store before any operation (missing from the sources). -/
def Coordinator.empty : Coordinator := ⟨[], []⟩

/-- Modelled from the spec: the errors of `SubmitResult` (missing from the sources). -/
inductive SubmitError
  | UnknownCampaign
  | NotATarget
  | NotDelivered
  deriving DecidableEq, Repr

/-- Modelled from the spec: the acknowledgement of `SubmitResult` (missing from the
sources); `AlreadyReceived` is the informational signal for a duplicate. -/
inductive Ack
  | Accepted
  | AlreadyReceived
  deriving DecidableEq, Repr

/-- Modelled from the spec: the errors of `CreateCampaign` (missing from the sources). -/
inductive CreateError
  | EmptyTargetSet
  | InvalidQuery
  deriving DecidableEq, Repr

deriving instance DecidableEq for Except

/-- Modelled from the spec: `ReadResults(campaignID, nodeID)` of the result aggregator
(missing from the sources): the stored rows of one node for one campaign. -/
def ReadResults (s : Coordinator) (cid nid : Nat) : List ResultRow :=
  s.results.filter (fun r => r.campaign_id == cid && r.node_id == nid)

/-- Modelled from the spec: `Store` of the result aggregator (missing from the sources):
append-only, and a no-op when a row set for that campaign and node already exists. -/
def Store (results : List ResultRow) (cid nid : Nat) (rows : List (List (String × String)))
    (now : Nat) : List ResultRow :=
  if results.any (fun r => r.campaign_id == cid && r.node_id == nid) then results
  else results ++ [⟨cid, nid, rows, now⟩]

/-- Modelled from the spec: the completion check of the campaign manager (missing from the
sources): an active campaign whose targets all have a result or are excluded becomes
`Complete`. -/
def completionCheck (c : Campaign) : Campaign :=
  if c.status = CampaignStatus.Active ∧
      c.targets.all (fun t => t.result_received_at.isSome || t.excluded) = true then
    { c with status := CampaignStatus.Complete }
  else c

/-- Modelled from the spec: the campaign with a given id (missing from the sources). -/
def findCampaign (s : Coordinator) (cid : Nat) : Option Campaign :=
  s.campaigns.find? (fun c => c.campaign_id == cid)

/-- Modelled from the spec: the target of a campaign for a given node (missing from the
sources). -/
def findTarget (c : Campaign) (nid : Nat) : Option CampaignTarget :=
  c.targets.find? (fun t => t.node_id == nid)

/-- Modelled from the spec: the first acceptance of a result (missing from the sources)
sets `result_received_at` of the target and runs the completion check. -/
def markReceived (now cid nid : Nat) (c : Campaign) : Campaign :=
  if c.campaign_id = cid then
    completionCheck { c with
      targets := c.targets.map (fun t =>
        if t.node_id = nid then { t with result_received_at := some now } else t) }
  else c

/-- Modelled from the spec: `SubmitResult(campaignID, nodeID, rows)` of the campaign
manager (missing from the sources, it is what `distributed.DistributedQueryWrite` is
specified to do). It fails with `UnknownCampaign`, `NotATarget` or `NotDelivered`; a second
submission for the same campaign and node is answered `AlreadyReceived` and changes
nothing; the first acceptance sets `result_received_at`, forwards the rows to the result
aggregator and runs the completion check. -/
def SubmitResult (s : Coordinator) (now cid nid : Nat) (rows : List (List (String × String))) :
    Except SubmitError Ack × Coordinator :=
  match findCampaign s cid with
  | none => (Except.error SubmitError.UnknownCampaign, s)
  | some c =>
    match findTarget c nid with
    | none => (Except.error SubmitError.NotATarget, s)
    | some t =>
      match t.delivered_at with
      | none => (Except.error SubmitError.NotDelivered, s)
      | some _ =>
        match t.result_received_at with
        | some _ => (Except.ok Ack.AlreadyReceived, s)
        | none =>
          (Except.ok Ack.Accepted,
            { campaigns := s.campaigns.map (markReceived now cid nid),
              results := Store s.results cid nid rows now })

/-- Modelled from the spec: `CreateCampaign(queryText, selector, createdBy)` of the campaign
manager (missing from the sources); `targets` is the node-id set that the selector matches
among the approved nodes at this instant, frozen into targets that are not yet delivered. -/
def CreateCampaign (s : Coordinator) (now : Nat) (queryText : String) (targets : List Nat)
    (createdBy : String) : Except CreateError Nat × Coordinator :=
  if targets = [] then (Except.error CreateError.EmptyTargetSet, s)
  else if queryText = "" then (Except.error CreateError.InvalidQuery, s)
  else
    (Except.ok s.campaigns.length,
      { s with campaigns := s.campaigns ++
          [⟨s.campaigns.length, queryText, createdBy, now, CampaignStatus.Active,
            targets.map (fun n => ⟨n, none, none, false⟩)⟩] })

/-- Modelled from the spec: does `PollForNode` hand this campaign to the node (missing from
the sources): it is `Active` and has a target for the node not yet delivered. -/
def pendingFor (nid : Nat) (c : Campaign) : Bool :=
  c.status == CampaignStatus.Active &&
    c.targets.any (fun t => t.node_id == nid && t.delivered_at.isNone)

/-- Modelled from the spec: `PollForNode(nodeID)` of the campaign manager (missing from the
sources): the undelivered active campaigns of the node, each marked delivered in the same
operation. -/
def PollForNode (s : Coordinator) (now nid : Nat) : List (Nat × String) × Coordinator :=
  ((s.campaigns.filter (pendingFor nid)).map (fun c => (c.campaign_id, c.query_text)),
    { s with campaigns := s.campaigns.map (fun c =>
        if pendingFor nid c then
          { c with targets := c.targets.map (fun t =>
              if t.node_id = nid ∧ t.delivered_at = none then { t with delivered_at := some now }
              else t) }
        else c) })

/-- Modelled from the spec: `CloseCampaign(campaignID)` of the campaign manager (missing
from the sources): the status becomes `Closed` whatever the completion. -/
def CloseCampaign (s : Coordinator) (cid : Nat) : Coordinator :=
  { s with campaigns := s.campaigns.map (fun c =>
      if c.campaign_id = cid then { c with status := CampaignStatus.Closed } else c) }

/-- Modelled from the spec: the operator action "mark unreachable" (missing from the
sources): the target is excluded, and the completion check runs. -/
def MarkUnreachable (s : Coordinator) (cid nid : Nat) : Coordinator :=
  { s with campaigns := s.campaigns.map (fun c =>
      if c.campaign_id = cid then
        completionCheck { c with
          targets := c.targets.map (fun t =>
            if t.node_id = nid then { t with excluded := true } else t) }
      else c) }

/-- Modelled from the spec: one operation on the store (missing from the sources). -/
inductive Op
  | CreateCampaign (now : Nat) (queryText : String) (targets : List Nat) (createdBy : String)
  | PollForNode (now nid : Nat)
  | SubmitResult (now cid nid : Nat) (rows : List (List (String × String)))
  | CloseCampaign (cid : Nat)
  | MarkUnreachable (cid nid : Nat)
  deriving DecidableEq, Repr

/-- Modelled from the spec: the store after one operation (missing from the sources). -/
def Coordinator.apply (s : Coordinator) : Op → Coordinator
  | Op.CreateCampaign now q ts by_ => (CreateCampaign s now q ts by_).2
  | Op.PollForNode now nid => (PollForNode s now nid).2
  | Op.SubmitResult now cid nid rows => (SubmitResult s now cid nid rows).2
  | Op.CloseCampaign cid => CloseCampaign s cid
  | Op.MarkUnreachable cid nid => MarkUnreachable s cid nid

/-- Modelled from the spec: the store after a sequence of operations on the empty store
(missing from the sources). -/
def Coordinator.after (ops : List Op) : Coordinator :=
  ops.foldl Coordinator.apply Coordinator.empty

/-- The invariant of the store used for idempotent ingestion: no campaign and node have
more than one stored row, and a target with `result_received_at` set has exactly one. -/
def RowsAgree (s : Coordinator) : Prop :=
  (∀ cid nid, (ReadResults s cid nid).length ≤ 1) ∧
  (∀ cid nid c t, findCampaign s cid = some c → findTarget c nid = some t →
    t.result_received_at ≠ none → (ReadResults s cid nid).length = 1)

/-! ## Facts about matching -/

theorem matchParts_lit_isPrefixOf (exact : Bool) (l : String) (ps : Template) (s : List Char)
    (h : matchParts exact (Part.lit l :: ps) s = true) : l.data.isPrefixOf s = true := by
  simp only [matchParts, Bool.and_eq_true] at h
  exact h.1

theorem Subrouter.Match_eq_some {sr : Subrouter} {req : Request} {h : HandlerFunc}
    (hm : sr.Match req = some h) :
    ∃ r ∈ sr.routes, r.handler = h ∧ Route.matches sr.base req r = true := by
  unfold Subrouter.Match at hm
  rcases Option.map_eq_some'.mp hm with ⟨r, hr, hh⟩
  exact ⟨r, List.mem_of_find?_eq_some hr, hh, List.find?_some hr⟩

theorem Subrouter.handler_mem_matched {sr : Subrouter} {req : Request} {h : HandlerFunc} :
    Event.handler h ∈ sr.matched req ↔ sr.Match req = some h := by
  unfold Subrouter.matched
  cases hm : sr.Match req <;> simp [eq_comm]

theorem Subrouter.matched_of_Match {sr : Subrouter} {req : Request} {h : HandlerFunc}
    (hm : sr.Match req = some h) : sr.matched req = [Event.handler h] := by
  simp [Subrouter.matched, hm]

/-- On a clean path the method `ServeHTTP` of a router goes to the matched handler. -/
theorem Subrouter.ServeHTTP_clean (sr : Subrouter) (req : Request)
    (hc : cleanPath req.path = req.path) : sr.ServeHTTP req = sr.matched req := by
  unfold Subrouter.ServeHTTP
  rw [if_neg (not_not.mpr hc)]

/-- The stack `negroni.New(NewRecovery(), HandlerFunc(f), Wrap(sr))` of `server()`. -/
theorem negroniServe_stack (accepts : AuthFunc → Request → Bool) (req : Request)
    (f : AuthFunc) (sr : Subrouter) :
    negroniServe accepts req
        [NegroniHandler.NewRecovery, NegroniHandler.HandlerFunc f, NegroniHandler.Wrap sr] =
      if accepts f req then Event.recovery :: Event.auth f true :: sr.ServeHTTP req
      else [Event.recovery, Event.auth f false] := by
  by_cases h : accepts f req = true <;> simp [negroniServe, h]

/-- A path that is not clean is answered with a redirect: no route is tried, no middleware
and no handler function runs. -/
theorem server_redirect (accepts : AuthFunc → Request → Bool) (req : Request)
    (hc : cleanPath req.path ≠ req.path) : server accepts req = [Event.redirect] := by
  unfold server ServeHTTP
  rw [if_pos hc]

/-- The routes of `router` tried in order, on a clean path. -/
theorem server_eq (accepts : AuthFunc → Request → Bool) (req : Request)
    (hc : cleanPath req.path = req.path) :
    server accepts req =
      if matchParts false [Part.lit "/node"] req.path.data && (nodeAPI.Match req).isSome then
        nodeAPI.matched req
      else if matchParts false [Part.lit "/api/v1/configuration"] req.path.data then
        (if accepts AuthFunc.AnotherValidation req then
          Event.recovery :: Event.auth AuthFunc.AnotherValidation true :: apiRouter.matched req
        else [Event.recovery, Event.auth AuthFunc.AnotherValidation false])
      else if matchParts true [Part.lit "/api/v1/get-token"] req.path.data then
        [Event.handler HandlerFunc.GetTokenHandler]
      else if matchParts false [Part.lit "/distributed"] req.path.data then
        (if accepts AuthFunc.ValidNodeKey req then
          Event.recovery :: Event.auth AuthFunc.ValidNodeKey true :: distributedRouter.matched req
        else [Event.recovery, Event.auth AuthFunc.ValidNodeKey false])
      else [Event.notFound] := by
  unfold server ServeHTTP
  rw [if_neg (not_not.mpr hc)]
  by_cases h1 : (matchParts false [Part.lit "/node"] req.path.data
      && (nodeAPI.Match req).isSome) = true <;>
  by_cases h2 : matchParts false [Part.lit "/api/v1/configuration"] req.path.data = true <;>
  by_cases h3 : matchParts true [Part.lit "/api/v1/get-token"] req.path.data = true <;>
  by_cases h4 : matchParts false [Part.lit "/distributed"] req.path.data = true <;>
  simp only [router, List.find?, TopRoute.matches, Bool.and_true,
    Target.serve, negroniServe_stack, Subrouter.ServeHTTP_clean _ _ hc, h1, h2, h3, h4,
    if_true, if_false, Bool.false_eq_true]

/-- A handler function runs only for a clean path. -/
theorem server_handler_clean (accepts : AuthFunc → Request → Bool) (req : Request)
    (h : HandlerFunc) (hin : Event.handler h ∈ server accepts req) :
    cleanPath req.path = req.path := by
  by_contra hc
  rw [server_redirect accepts req hc] at hin
  simp at hin

theorem matchParts_nil_exact (s : List Char) : matchParts true [] s = true ↔ s = [] := by
  simp [matchParts]

theorem matchParts_lit_iff (exact : Bool) (l : String) (ps : Template) (s : List Char) :
    matchParts exact (Part.lit l :: ps) s = true ↔
      ∃ t, s = l.data ++ t ∧ matchParts exact ps t = true := by
  simp only [matchParts, Bool.and_eq_true, List.isPrefixOf_iff_prefix]
  constructor
  · rintro ⟨⟨t, rfl⟩, h⟩
    exact ⟨t, rfl, by simpa using h⟩
  · rintro ⟨t, rfl, h⟩
    exact ⟨⟨t, rfl⟩, by simpa using h⟩

theorem Subrouter.Match_mem {sr : Subrouter} {req : Request} {h : HandlerFunc}
    (hm : sr.Match req = some h) : h ∈ sr.routes.map Route.handler := by
  rcases Subrouter.Match_eq_some hm with ⟨r, hr, hh, _⟩
  exact List.mem_map.mpr ⟨r, hr, hh⟩

/-- Every way in which `router` hands a request to a handler function. -/
theorem server_handler_cases (accepts : AuthFunc → Request → Bool) (req : Request)
    (h : HandlerFunc) (hin : Event.handler h ∈ server accepts req) :
    (nodeAPI.Match req = some h ∧ server accepts req = [Event.handler h]) ∨
    ("/api/v1/configuration".data.isPrefixOf req.path.data = true ∧
      accepts AuthFunc.AnotherValidation req = true ∧ apiRouter.Match req = some h ∧
      server accepts req =
        [Event.recovery, Event.auth AuthFunc.AnotherValidation true, Event.handler h]) ∨
    (req.path = "/api/v1/get-token" ∧ h = HandlerFunc.GetTokenHandler ∧
      server accepts req = [Event.handler h]) ∨
    ("/distributed".data.isPrefixOf req.path.data = true ∧
      accepts AuthFunc.ValidNodeKey req = true ∧ distributedRouter.Match req = some h ∧
      server accepts req =
        [Event.recovery, Event.auth AuthFunc.ValidNodeKey true, Event.handler h]) := by
  have hc := server_handler_clean accepts req h hin
  rw [server_eq accepts req hc] at hin ⊢
  split_ifs at hin ⊢ with h1 h2 h3 h4 h5 h6
  · have hm := Subrouter.handler_mem_matched.mp hin
    exact Or.inl ⟨hm, Subrouter.matched_of_Match hm⟩
  · have hm : apiRouter.Match req = some h := by
      apply Subrouter.handler_mem_matched.mp
      simpa using hin
    refine Or.inr (Or.inl ⟨matchParts_lit_isPrefixOf _ _ _ _ h2, h3, hm, ?_⟩)
    rw [Subrouter.matched_of_Match hm]
  · simp at hin
  · have hp : req.path = "/api/v1/get-token" := by
      rcases (matchParts_lit_iff _ _ _ _).mp h4 with ⟨t, ht, hnil⟩
      rw [(matchParts_nil_exact t).mp hnil, List.append_nil] at ht
      exact String.ext ht
    have hh : h = HandlerFunc.GetTokenHandler := by simpa using hin
    exact Or.inr (Or.inr (Or.inl ⟨hp, hh, by rw [hh]⟩))
  · have hm : distributedRouter.Match req = some h := by
      apply Subrouter.handler_mem_matched.mp
      simpa using hin
    refine Or.inr (Or.inr (Or.inr ⟨matchParts_lit_isPrefixOf _ _ _ _ h5, h6, hm, ?_⟩))
    rw [Subrouter.matched_of_Match hm]
  · simp at hin
  · simp at hin

theorem isPrefixOf_diverge {a b p : List Char} (ha : a.isPrefixOf p = true)
    (hab : (a.isPrefixOf b || b.isPrefixOf a) = false) : b.isPrefixOf p = false := by
  rcases Bool.eq_false_or_eq_true (b.isPrefixOf p) with hb | hb
  · rw [List.isPrefixOf_iff_prefix] at ha hb
    rcases List.prefix_or_prefix_of_prefix ha hb with h | h
    · rw [← List.isPrefixOf_iff_prefix] at h
      simp [h] at hab
    · rw [← List.isPrefixOf_iff_prefix] at h
      simp [h] at hab
  · exact hb

theorem matchParts_single (exact : Bool) (l : String) (s : List Char)
    (h : l.data.isPrefixOf s = false) : matchParts exact [Part.lit l] s = false := by
  simp [matchParts, h]

/-- A clean path that starts with `/distributed` is served by the fourth route of
`router`. -/
theorem server_of_distributed (accepts : AuthFunc → Request → Bool) (req : Request)
    (hp : "/distributed".data.isPrefixOf req.path.data = true)
    (hc : cleanPath req.path = req.path) :
    server accepts req =
      if accepts AuthFunc.ValidNodeKey req then
        Event.recovery :: Event.auth AuthFunc.ValidNodeKey true ::
          distributedRouter.ServeHTTP req
      else [Event.recovery, Event.auth AuthFunc.ValidNodeKey false] := by
  have h1 : matchParts false [Part.lit "/node"] req.path.data = false :=
    matchParts_single _ _ _ (isPrefixOf_diverge hp (by decide))
  have h2 : matchParts false [Part.lit "/api/v1/configuration"] req.path.data = false :=
    matchParts_single _ _ _ (isPrefixOf_diverge hp (by decide))
  have h3 : matchParts true [Part.lit "/api/v1/get-token"] req.path.data = false :=
    matchParts_single _ _ _ (isPrefixOf_diverge hp (by decide))
  have h4 : matchParts false [Part.lit "/distributed"] req.path.data = true := by
    simp [matchParts, hp]
  rw [server_eq accepts req hc, Subrouter.ServeHTTP_clean _ _ hc]
  simp [h1, h2, h3, h4]

theorem distributedRouter_read (m : String) :
    distributedRouter.Match ⟨m, "/distributed/read"⟩ =
      some HandlerFunc.DistributedQueryRead := by
  have h : Route.matches distributedRouter.base ⟨m, "/distributed/read"⟩
      ⟨[Part.lit "/read"], true, [], HandlerFunc.DistributedQueryRead⟩ = true := by
    simp only [Route.matches, methodOk, List.isEmpty, Bool.true_or, Bool.and_true]
    decide
  simp [Subrouter.Match, distributedRouter, List.find?] at h ⊢
  simp [distributedRouter, h]

theorem distributedRouter_write (m : String) :
    distributedRouter.Match ⟨m, "/distributed/write"⟩ =
      some HandlerFunc.DistributedQueryWrite := by
  have h1 : Route.matches distributedRouter.base ⟨m, "/distributed/write"⟩
      ⟨[Part.lit "/read"], true, [], HandlerFunc.DistributedQueryRead⟩ = false := by
    simp only [Route.matches, methodOk, List.isEmpty, Bool.true_or, Bool.and_true]
    decide
  have h2 : Route.matches distributedRouter.base ⟨m, "/distributed/write"⟩
      ⟨[Part.lit "/write"], true, [], HandlerFunc.DistributedQueryWrite⟩ = true := by
    simp only [Route.matches, methodOk, List.isEmpty, Bool.true_or, Bool.and_true]
    decide
  simp [Subrouter.Match, distributedRouter, List.find?] at h1 h2 ⊢
  simp [distributedRouter, h1, h2]

/-- C1: a request whose path starts with `/distributed` is answered with a redirect when
the path is not clean, and is otherwise served by the stack
`[recovery, auth.ValidNodeKey, distributedRouter]`; `DistributedQueryRead` and
`DistributedQueryWrite` run only for a clean path under `/distributed`, after
`auth.ValidNodeKey` has run and accepted the request, and an accepted request for
`/distributed/read` or `/distributed/write` does reach them. -/
theorem distributed_behind_ValidNodeKey (accepts : AuthFunc → Request → Bool)
    (req : Request) :
    (cleanPath req.path ≠ req.path → server accepts req = [Event.redirect]) ∧
    ("/distributed".data.isPrefixOf req.path.data = true → cleanPath req.path = req.path →
      server accepts req =
        if accepts AuthFunc.ValidNodeKey req then
          Event.recovery :: Event.auth AuthFunc.ValidNodeKey true ::
            distributedRouter.ServeHTTP req
        else [Event.recovery, Event.auth AuthFunc.ValidNodeKey false]) ∧
    (∀ h, h = HandlerFunc.DistributedQueryRead ∨ h = HandlerFunc.DistributedQueryWrite →
      Event.handler h ∈ server accepts req →
        cleanPath req.path = req.path ∧
        "/distributed".data.isPrefixOf req.path.data = true ∧
        accepts AuthFunc.ValidNodeKey req = true ∧
        server accepts req =
          [Event.recovery, Event.auth AuthFunc.ValidNodeKey true, Event.handler h]) ∧
    (req.path = "/distributed/read" → accepts AuthFunc.ValidNodeKey req = true →
      server accepts req = [Event.recovery, Event.auth AuthFunc.ValidNodeKey true,
        Event.handler HandlerFunc.DistributedQueryRead]) ∧
    (req.path = "/distributed/write" → accepts AuthFunc.ValidNodeKey req = true →
      server accepts req = [Event.recovery, Event.auth AuthFunc.ValidNodeKey true,
        Event.handler HandlerFunc.DistributedQueryWrite]) := by
  refine ⟨server_redirect accepts req, server_of_distributed accepts req, ?_, ?_, ?_⟩
  · intro h hh hin
    have hc := server_handler_clean accepts req h hin
    rcases server_handler_cases accepts req h hin with
      ⟨hm, _⟩ | ⟨_, _, hm, _⟩ | ⟨_, hg, _⟩ | ⟨hp, ha, _, hs⟩
    · have := Subrouter.Match_mem hm
      rcases hh with rfl | rfl <;> simp [nodeAPI] at this
    · have := Subrouter.Match_mem hm
      rcases hh with rfl | rfl <;> simp [apiRouter] at this
    · rcases hh with rfl | rfl <;> simp at hg
    · exact ⟨hc, hp, ha, hs⟩
  · intro hp ha
    obtain ⟨m, path⟩ := req
    simp only at hp
    subst hp
    have hd : "/distributed".data.isPrefixOf "/distributed/read".data = true := by decide
    have hc : cleanPath "/distributed/read" = "/distributed/read" := by decide
    rw [server_of_distributed accepts _ hd hc, Subrouter.ServeHTTP_clean _ _ hc,
      Subrouter.matched_of_Match (distributedRouter_read m)]
    simp [ha]
  · intro hp ha
    obtain ⟨m, path⟩ := req
    simp only at hp
    subst hp
    have hd : "/distributed".data.isPrefixOf "/distributed/write".data = true := by decide
    have hc : cleanPath "/distributed/write" = "/distributed/write" := by decide
    rw [server_of_distributed accepts _ hd hc, Subrouter.ServeHTTP_clean _ _ hc,
      Subrouter.matched_of_Match (distributedRouter_write m)]
    simp [ha]

/-- Non-vacuity of C1: at `POST /distributed/write` with every credential accepted the
write handler runs, and it runs behind `auth.ValidNodeKey`; at `GET /distributed/./read`
the router redirects. -/
theorem distributed_behind_ValidNodeKey_witness :
    (Event.handler HandlerFunc.DistributedQueryWrite ∈
        server (fun _ _ => true) ⟨"POST", "/distributed/write"⟩ ∧
      server (fun _ _ => true) ⟨"POST", "/distributed/write"⟩ =
        [Event.recovery, Event.auth AuthFunc.ValidNodeKey true,
          Event.handler HandlerFunc.DistributedQueryWrite]) ∧
    server (fun _ _ => true) ⟨"GET", "/distributed/./read"⟩ = [Event.redirect] :=
  ⟨⟨by decide,
    ((distributed_behind_ValidNodeKey (fun _ _ => true) ⟨"POST", "/distributed/write"⟩).2.2.1
      HandlerFunc.DistributedQueryWrite (Or.inr rfl) (by decide)).2.2.2⟩,
    (distributed_behind_ValidNodeKey (fun _ _ => true) ⟨"GET", "/distributed/./read"⟩).1
      (by decide)⟩

/-- C2: the twelve routes of the management router are the listed ones, and a handler
registered on it runs only for a path under `/api/v1/configuration`, only behind the
stack `[recovery, auth.AnotherValidation]`, and only after `auth.AnotherValidation`
accepted the request. -/
theorem management_behind_AnotherValidation (accepts : AuthFunc → Request → Bool)
    (req : Request) :
    apiRouter.routes.map (fun r => Template.render r.tpl) =
      ["/configs", "/configs/{config_name}", "/nodes", "/nodes/{node_key}",
        "/nodes/{node_key}/approve", "/packs", "/packs/search/{search_string}",
        "/packs/{pack_name}", "/packqueries", "/packqueries/{query_name}",
        "/packqueries/search/{search_string}", "/distributed/add"] ∧
    ∀ h, h ∈ apiRouter.routes.map Route.handler →
      Event.handler h ∈ server accepts req →
        "/api/v1/configuration".data.isPrefixOf req.path.data = true ∧
        accepts AuthFunc.AnotherValidation req = true ∧
        server accepts req =
          [Event.recovery, Event.auth AuthFunc.AnotherValidation true, Event.handler h] := by
  refine ⟨by decide, ?_⟩
  intro h hh hin
  rcases server_handler_cases accepts req h hin with
    ⟨hm, _⟩ | ⟨hp, ha, _, hs⟩ | ⟨_, hg, _⟩ | ⟨_, _, hm, _⟩
  · have hn := Subrouter.Match_mem hm
    simp only [nodeAPI, List.map, List.mem_cons, List.mem_singleton, List.mem_nil_iff,
      or_false] at hn
    rcases hn with rfl | rfl <;> simp [apiRouter] at hh
  · exact ⟨hp, ha, hs⟩
  · subst hg
    simp [apiRouter] at hh
  · have hn := Subrouter.Match_mem hm
    simp only [distributedRouter, List.map, List.mem_cons, List.mem_singleton,
      List.mem_nil_iff, or_false] at hn
    rcases hn with rfl | rfl <;> simp [apiRouter] at hh

/-- Non-vacuity of C2: `POST /api/v1/configuration/distributed/add` with the operator
credential accepted reaches `DistributedQueryAdd` behind `auth.AnotherValidation`. -/
theorem management_behind_AnotherValidation_witness :
    HandlerFunc.DistributedQueryAdd ∈ apiRouter.routes.map Route.handler ∧
      server (fun _ _ => true) ⟨"POST", "/api/v1/configuration/distributed/add"⟩ =
        [Event.recovery, Event.auth AuthFunc.AnotherValidation true,
          Event.handler HandlerFunc.DistributedQueryAdd] :=
  ⟨by decide,
    ((management_behind_AnotherValidation (fun _ _ => true)
        ⟨"POST", "/api/v1/configuration/distributed/add"⟩).2
      HandlerFunc.DistributedQueryAdd (by decide) (by decide)).2.2⟩

/-- The two routes of `nodeAPI` match exactly the paths `/node/configure` and
`/node/enroll`. -/
theorem nodeAPI_Match_eq_some {req : Request} {h : HandlerFunc}
    (hm : nodeAPI.Match req = some h) :
    (h = HandlerFunc.NodeConfigureRequest ∧ req.path = "/node/configure") ∨
    (h = HandlerFunc.NodeEnrollRequest ∧ req.path = "/node/enroll") := by
  rcases Subrouter.Match_eq_some hm with ⟨r, hr, hh, hmatch⟩
  simp only [nodeAPI, List.mem_cons, List.mem_singleton, List.mem_nil_iff, or_false] at hr
  rcases hr with rfl | rfl
  · left
    refine ⟨hh.symm, ?_⟩
    simp only [Route.matches, nodeAPI, List.cons_append, List.nil_append,
      Bool.and_eq_true] at hmatch
    rcases (matchParts_lit_iff _ _ _ _).mp hmatch.1 with ⟨t, ht, h2⟩
    rcases (matchParts_lit_iff _ _ _ _).mp h2 with ⟨u, hu, h3⟩
    rw [(matchParts_nil_exact u).mp h3] at hu
    rw [hu] at ht
    exact String.ext ht
  · right
    refine ⟨hh.symm, ?_⟩
    simp only [Route.matches, nodeAPI, List.cons_append, List.nil_append,
      Bool.and_eq_true] at hmatch
    rcases (matchParts_lit_iff _ _ _ _).mp hmatch.1 with ⟨t, ht, h2⟩
    rcases (matchParts_lit_iff _ _ _ _).mp h2 with ⟨u, hu, h3⟩
    rw [(matchParts_nil_exact u).mp h3] at hu
    rw [hu] at ht
    exact String.ext ht

/-- C3, as stated, fails: with no credential accepted at all, requests for
`/node/enroll`, `/node/configure` and `/api/v1/get-token` are handed to their handlers,
and no credential check runs before them. -/
theorem open_routes_reach_handlers :
    server (fun _ _ => false) ⟨"POST", "/node/enroll"⟩ =
        [Event.handler HandlerFunc.NodeEnrollRequest] ∧
      server (fun _ _ => false) ⟨"POST", "/node/configure"⟩ =
        [Event.handler HandlerFunc.NodeConfigureRequest] ∧
      server (fun _ _ => false) ⟨"POST", "/api/v1/get-token"⟩ =
        [Event.handler HandlerFunc.GetTokenHandler] := by
  decide

theorem nodeAPI_configure (m : String) :
    nodeAPI.Match ⟨m, "/node/configure"⟩ = some HandlerFunc.NodeConfigureRequest := by
  have h1 : Route.matches nodeAPI.base ⟨m, "/node/configure"⟩
      ⟨[Part.lit "/configure"], true, [], HandlerFunc.NodeConfigureRequest⟩ = true := by
    simp only [Route.matches, methodOk, List.isEmpty, Bool.true_or, Bool.and_true]
    decide
  simp [Subrouter.Match, nodeAPI, List.find?] at h1 ⊢
  simp [nodeAPI, h1]

theorem nodeAPI_enroll (m : String) :
    nodeAPI.Match ⟨m, "/node/enroll"⟩ = some HandlerFunc.NodeEnrollRequest := by
  have h1 : Route.matches nodeAPI.base ⟨m, "/node/enroll"⟩
      ⟨[Part.lit "/configure"], true, [], HandlerFunc.NodeConfigureRequest⟩ = false := by
    simp only [Route.matches, methodOk, List.isEmpty, Bool.true_or, Bool.and_true]
    decide
  have h2 : Route.matches nodeAPI.base ⟨m, "/node/enroll"⟩
      ⟨[Part.lit "/enroll"], true, [], HandlerFunc.NodeEnrollRequest⟩ = true := by
    simp only [Route.matches, methodOk, List.isEmpty, Bool.true_or, Bool.and_true]
    decide
  simp [Subrouter.Match, nodeAPI, List.find?] at h1 h2 ⊢
  simp [nodeAPI, h1, h2]

/-- The three routes without middleware, for every method and whatever the credential
checks would answer. -/
theorem server_open_routes (accepts : AuthFunc → Request → Bool) (m : String) :
    server accepts ⟨m, "/node/configure"⟩ =
        [Event.handler HandlerFunc.NodeConfigureRequest] ∧
      server accepts ⟨m, "/node/enroll"⟩ = [Event.handler HandlerFunc.NodeEnrollRequest] ∧
      server accepts ⟨m, "/api/v1/get-token"⟩ = [Event.handler HandlerFunc.GetTokenHandler] := by
  refine ⟨?_, ?_, ?_⟩
  · have hp : matchParts false [Part.lit "/node"] "/node/configure".data = true := by decide
    have hc : cleanPath "/node/configure" = "/node/configure" := by decide
    rw [server_eq accepts _ hc]
    simp only [hp, nodeAPI_configure, Option.isSome_some, Bool.and_self, if_true]
    exact Subrouter.matched_of_Match (nodeAPI_configure m)
  · have hp : matchParts false [Part.lit "/node"] "/node/enroll".data = true := by decide
    have hc : cleanPath "/node/enroll" = "/node/enroll" := by decide
    rw [server_eq accepts _ hc]
    simp only [hp, nodeAPI_enroll, Option.isSome_some, Bool.and_self, if_true]
    exact Subrouter.matched_of_Match (nodeAPI_enroll m)
  · have h1 : matchParts false [Part.lit "/node"] "/api/v1/get-token".data = false := by
      decide
    have h2 : matchParts false [Part.lit "/api/v1/configuration"] "/api/v1/get-token".data
        = false := by decide
    have h3 : matchParts true [Part.lit "/api/v1/get-token"] "/api/v1/get-token".data
        = true := by decide
    have hc : cleanPath "/api/v1/get-token" = "/api/v1/get-token" := by decide
    rw [server_eq accepts _ hc]
    simp only [h1, h2, h3, Bool.false_and, Bool.false_eq_true, if_false, if_true]

/-- C3, amended: a handler of a route registered under `/distributed` runs only after
`auth.ValidNodeKey` ran and accepted the request, a handler of a route registered under
`/api/v1/configuration` only after `auth.AnotherValidation` ran and accepted it; every
other run of a handler is a request for exactly `/node/configure`, `/node/enroll` or
`/api/v1/get-token`, and these three routes have no middleware: a request for them is
handed to the handler under every method and without any credential check. -/
theorem handler_checked_or_open_route (accepts : AuthFunc → Request → Bool)
    (req : Request) :
    (∀ h, h ∈ distributedRouter.routes.map Route.handler →
      Event.handler h ∈ server accepts req →
        "/distributed".data.isPrefixOf req.path.data = true ∧
        accepts AuthFunc.ValidNodeKey req = true ∧
        server accepts req =
          [Event.recovery, Event.auth AuthFunc.ValidNodeKey true, Event.handler h]) ∧
    (∀ h, h ∈ apiRouter.routes.map Route.handler →
      Event.handler h ∈ server accepts req →
        "/api/v1/configuration".data.isPrefixOf req.path.data = true ∧
        accepts AuthFunc.AnotherValidation req = true ∧
        server accepts req =
          [Event.recovery, Event.auth AuthFunc.AnotherValidation true, Event.handler h]) ∧
    (∀ h, Event.handler h ∈ server accepts req →
      h ∈ distributedRouter.routes.map Route.handler ∨
      h ∈ apiRouter.routes.map Route.handler ∨
      (server accepts req = [Event.handler h] ∧
        ((h = HandlerFunc.NodeConfigureRequest ∧ req.path = "/node/configure") ∨
         (h = HandlerFunc.NodeEnrollRequest ∧ req.path = "/node/enroll") ∨
         (h = HandlerFunc.GetTokenHandler ∧ req.path = "/api/v1/get-token")))) ∧
    server accepts ⟨req.method, "/node/configure"⟩ =
      [Event.handler HandlerFunc.NodeConfigureRequest] ∧
    server accepts ⟨req.method, "/node/enroll"⟩ =
      [Event.handler HandlerFunc.NodeEnrollRequest] ∧
    server accepts ⟨req.method, "/api/v1/get-token"⟩ =
      [Event.handler HandlerFunc.GetTokenHandler] := by
  refine ⟨?_, ?_, ?_, server_open_routes accepts req.method⟩
  · intro h hh hin
    rcases server_handler_cases accepts req h hin with
      ⟨hm, _⟩ | ⟨_, _, hm, _⟩ | ⟨_, hg, _⟩ | ⟨hp, ha, _, hs⟩
    · have hn := Subrouter.Match_mem hm
      simp only [nodeAPI, List.map, List.mem_cons, List.mem_singleton, List.mem_nil_iff,
        or_false] at hn
      rcases hn with rfl | rfl <;> simp [distributedRouter] at hh
    · have hn := Subrouter.Match_mem hm
      simp only [distributedRouter, List.map, List.mem_cons, List.mem_singleton,
        List.mem_nil_iff, or_false] at hh
      rcases hh with rfl | rfl <;> simp [apiRouter] at hn
    · subst hg
      simp [distributedRouter] at hh
    · exact ⟨hp, ha, hs⟩
  · intro h hh hin
    rcases server_handler_cases accepts req h hin with
      ⟨hm, _⟩ | ⟨hp, ha, _, hs⟩ | ⟨_, hg, _⟩ | ⟨_, _, hm, _⟩
    · have hn := Subrouter.Match_mem hm
      simp only [nodeAPI, List.map, List.mem_cons, List.mem_singleton, List.mem_nil_iff,
        or_false] at hn
      rcases hn with rfl | rfl <;> simp [apiRouter] at hh
    · exact ⟨hp, ha, hs⟩
    · subst hg
      simp [apiRouter] at hh
    · have hn := Subrouter.Match_mem hm
      simp only [distributedRouter, List.map, List.mem_cons, List.mem_singleton,
        List.mem_nil_iff, or_false] at hn
      rcases hn with rfl | rfl <;> simp [apiRouter] at hh
  · intro h hin
    rcases server_handler_cases accepts req h hin with
      ⟨hm, hs⟩ | ⟨_, _, hm, _⟩ | ⟨hp, hg, hs⟩ | ⟨_, _, hm, _⟩
    · right
      right
      refine ⟨hs, ?_⟩
      rcases nodeAPI_Match_eq_some hm with hc | he
      · exact Or.inl hc
      · exact Or.inr (Or.inl he)
    · exact Or.inr (Or.inl (Subrouter.Match_mem hm))
    · exact Or.inr (Or.inr ⟨hs, Or.inr (Or.inr ⟨hg, hp⟩)⟩)
    · exact Or.inl (Subrouter.Match_mem hm)

/-- Non-vacuity of the amended C3: a request for the node list that runs its handler was
accepted by `auth.AnotherValidation`, and a request for a distributed read that runs its
handler was accepted by `auth.ValidNodeKey`. -/
theorem handler_checked_or_open_route_witness :
    (Event.handler HandlerFunc.GetNodes ∈
        server (fun _ _ => true) ⟨"GET", "/api/v1/configuration/nodes"⟩ ∧
      server (fun _ _ => true) ⟨"GET", "/api/v1/configuration/nodes"⟩ =
        [Event.recovery, Event.auth AuthFunc.AnotherValidation true,
          Event.handler HandlerFunc.GetNodes]) ∧
    server (fun _ _ => true) ⟨"POST", "/distributed/read"⟩ =
      [Event.recovery, Event.auth AuthFunc.ValidNodeKey true,
        Event.handler HandlerFunc.DistributedQueryRead] :=
  ⟨⟨by decide,
    ((handler_checked_or_open_route (fun _ _ => true)
        ⟨"GET", "/api/v1/configuration/nodes"⟩).2.1
      HandlerFunc.GetNodes (by decide) (by decide)).2.2⟩,
    ((handler_checked_or_open_route (fun _ _ => true) ⟨"POST", "/distributed/read"⟩).1
      HandlerFunc.DistributedQueryRead (by decide) (by decide)).2.2⟩

/-! ## Facts about `main()` -/

theorem Run.bind_eq {α β : Type} (m : Run α) (k : α → Run β) : m >>= k = Run.bind m k := rfl

theorem Run.pure_eq {α : Type} (a : α) : (Pure.pure a : Run α) = Run.pure a := rfl

/-- The run of `main()` in the `-create_user` branch. -/
theorem main_createuser (w : World) (f : Flags) (hc : f.createuser = true)
    (hw : f.wizard = false) (hn : f.newDeploy = false) :
    main w f =
      if ¬ len f.username > 4 then
        ⟨[⟨Fn.flagUsage, []⟩,
          ⟨Fn.loggerError, ["username required, please pass username via -username flag"]⟩,
          ⟨Fn.osExit, ["0"]⟩], none⟩
      else if ¬ len f.credentialsFile > 4 then
        ⟨[⟨Fn.flagUsage, []⟩,
          ⟨Fn.loggerError,
            ["aws credentials file required, please pass via -credentialsFile flag"]⟩,
          ⟨Fn.osExit, ["0"]⟩], none⟩
      else if ¬ len f.profile > 4 then
        ⟨[⟨Fn.flagUsage, []⟩,
          ⟨Fn.loggerError, ["aws profile name required, please pass via -profile flag"]⟩,
          ⟨Fn.osExit, ["0"]⟩], none⟩
      else
        ⟨[⟨Fn.NewUser, [f.credentialsFile, f.profile, f.username, f.role]⟩], some ()⟩ := by
  by_cases h1 : len f.username > 4 <;> by_cases h2 : len f.credentialsFile > 4 <;>
    by_cases h3 : len f.profile > 4 <;>
    simp [main, hc, hw, hn, h1, h2, h3, Run.bind_eq, Run.pure_eq, Run.bind, Run.pure, call,
      osExit]

/-- The run of `main()` in the `-wizard` branch. -/
theorem main_wizard (w : World) (f : Flags) (hw : f.wizard = true) :
    (main w f).trace =
      ⟨Fn.DeployWizard, []⟩ ::
        (if w.fails Fn.DeployWizard then [⟨Fn.loggerFatal, ["err"]⟩] else []) := by
  by_cases h1 : w.fails Fn.DeployWizard = true <;>
    simp [main, hw, h1, Run.bind_eq, Run.pure_eq, Run.bind, Run.pure, callErr, loggerFatal]

/-- The run of `main()` in the `-new-deployment` branch when `os.Args[0]` is not empty:
the directory is created under the name `os.Args[0]`, and standard input is not read. -/
theorem main_newDeploy_arg0 (w : World) (f : Flags) (hw : f.wizard = false)
    (hn : f.newDeploy = true) (arg0 : String) (rest : List String)
    (ho : w.osArgs = arg0 :: rest) (h0 : len arg0 > 0) :
    main w f =
      if w.fails Fn.CreateDeployDirectory then
        ⟨[⟨Fn.CreateDeployDirectory, [arg0]⟩, ⟨Fn.loggerError, ["err"]⟩, ⟨Fn.osExit, ["1"]⟩],
          none⟩
      else
        ⟨[⟨Fn.CreateDeployDirectory, [arg0]⟩,
          ⟨Fn.loggerWarn, ["New deployment created.  Remember to go change the defaults in your $environment.json files!"]⟩],
          some ()⟩ := by
  by_cases h2 : w.fails Fn.CreateDeployDirectory = true <;>
    simp [main, hw, hn, ho, h0, h2, Run.bind_eq, Run.pure_eq, Run.bind, Run.pure,
      call, callErr, osExit]

/-- The run of `main()` in the `-new-deployment` branch when `os.Args[0]` is empty: the
name is asked for and read from standard input. -/
theorem main_newDeploy_stdin (w : World) (f : Flags) (hw : f.wizard = false)
    (hn : f.newDeploy = true) (arg0 : String) (rest : List String)
    (ho : w.osArgs = arg0 :: rest) (h0 : ¬ len arg0 > 0) :
    main w f =
      if (readLine w.stdin.data).2 then
        ⟨[⟨Fn.fmtPrint, ["Enter new environment name: "]⟩, ⟨Fn.ReadString, []⟩,
          ⟨Fn.loggerError, ["err"]⟩, ⟨Fn.osExit, ["1"]⟩], none⟩
      else if len (String.mk (readLine w.stdin.data).1) > 0 then
        if w.fails Fn.CreateDeployDirectory then
          ⟨[⟨Fn.fmtPrint, ["Enter new environment name: "]⟩, ⟨Fn.ReadString, []⟩,
            ⟨Fn.CreateDeployDirectory, [String.mk (readLine w.stdin.data).1]⟩,
            ⟨Fn.loggerError, ["err"]⟩, ⟨Fn.osExit, ["1"]⟩], none⟩
        else
          ⟨[⟨Fn.fmtPrint, ["Enter new environment name: "]⟩, ⟨Fn.ReadString, []⟩,
            ⟨Fn.CreateDeployDirectory, [String.mk (readLine w.stdin.data).1]⟩,
            ⟨Fn.loggerWarn, ["New deployment created.  Remember to go change the defaults in your $environment.json files!"]⟩],
            some ()⟩
      else
        ⟨[⟨Fn.fmtPrint, ["Enter new environment name: "]⟩, ⟨Fn.ReadString, []⟩,
          ⟨Fn.loggerWarn, ["New deployment created.  Remember to go change the defaults in your $environment.json files!"]⟩],
          some ()⟩ := by
  by_cases h2 : w.fails Fn.CreateDeployDirectory = true <;>
    by_cases h3 : (readLine w.stdin.data).2 = true <;>
    by_cases h4 : len (String.mk (readLine w.stdin.data).1) > 0 <;>
    simp [main, hw, hn, ho, h0, h2, h3, h4, Run.bind_eq, Run.pure_eq, Run.bind, Run.pure,
      call, callErr, osExit, ReadString]

/-- The run of `main()` in the `-new-deployment` branch when `os.Args` is empty. -/
theorem main_newDeploy_nil (w : World) (f : Flags) (hw : f.wizard = false)
    (hn : f.newDeploy = true) (ho : w.osArgs = []) :
    main w f = ⟨[⟨Fn.indexOutOfRange, ["os.Args[0]"]⟩], none⟩ := by
  simp [main, hw, hn, ho, Run.bind_eq, Run.bind]

/-- The calls `main()` can make in the `-new-deployment` branch. -/
theorem main_newDeploy_fns (w : World) (f : Flags) (hw : f.wizard = false)
    (hn : f.newDeploy = true) :
    ∀ a ∈ (main w f).trace, a.fn ∈ [Fn.indexOutOfRange, Fn.CreateDeployDirectory,
      Fn.loggerError, Fn.osExit, Fn.fmtPrint, Fn.ReadString, Fn.loggerWarn] := by
  intro a ha
  cases ho : w.osArgs with
  | nil =>
    rw [main_newDeploy_nil w f hw hn ho] at ha
    simp at ha
    simp [ha]
  | cons arg0 rest =>
    by_cases h0 : len arg0 > 0
    · rw [main_newDeploy_arg0 w f hw hn arg0 rest ho h0] at ha
      split_ifs at ha <;> simp at ha <;> aesop
    · rw [main_newDeploy_stdin w f hw hn arg0 rest ho h0] at ha
      split_ifs at ha <;> simp at ha <;> aesop

/-- C6: with `-create_user` set and neither `-wizard` nor `-new-deployment`, `main()`
checks the lengths of the username, the credentials file and the profile in this order,
each against `> 4`; the first check that fails prints the usage, logs its error and exits
with status 0, and `auth.NewUser(credentialsFile, profile, username, role)` is called
exactly when all three pass. Whatever the other flags, a call of `auth.NewUser` happens
only with all three longer than 4, so never with an empty one, and with `-create_user`
set no call of the deploy and destroy actions is made. -/
theorem create_user_guarded (w : World) (f : Flags) (hc : f.createuser = true) :
    (f.wizard = false → f.newDeploy = false →
      main w f =
        if ¬ len f.username > 4 then
          ⟨[⟨Fn.flagUsage, []⟩,
            ⟨Fn.loggerError, ["username required, please pass username via -username flag"]⟩,
            ⟨Fn.osExit, ["0"]⟩], none⟩
        else if ¬ len f.credentialsFile > 4 then
          ⟨[⟨Fn.flagUsage, []⟩,
            ⟨Fn.loggerError,
              ["aws credentials file required, please pass via -credentialsFile flag"]⟩,
            ⟨Fn.osExit, ["0"]⟩], none⟩
        else if ¬ len f.profile > 4 then
          ⟨[⟨Fn.flagUsage, []⟩,
            ⟨Fn.loggerError, ["aws profile name required, please pass via -profile flag"]⟩,
            ⟨Fn.osExit, ["0"]⟩], none⟩
        else
          ⟨[⟨Fn.NewUser, [f.credentialsFile, f.profile, f.username, f.role]⟩], some ()⟩) ∧
    (f.wizard = false → f.newDeploy = false →
      (⟨Fn.NewUser, [f.credentialsFile, f.profile, f.username, f.role]⟩ ∈ (main w f).trace ↔
        len f.username > 4 ∧ len f.credentialsFile > 4 ∧ len f.profile > 4)) ∧
    (∀ a ∈ (main w f).trace, a.fn = Fn.NewUser →
      len f.username > 4 ∧ len f.credentialsFile > 4 ∧ len f.profile > 4) ∧
    (f.username = "" ∨ f.credentialsFile = "" ∨ f.profile = "" →
      ∀ a ∈ (main w f).trace, a.fn ≠ Fn.NewUser) ∧
    (∀ a ∈ (main w f).trace, a.fn ∉ deployDestroyFns) := by
  have key : ∀ a ∈ (main w f).trace, (a.fn = Fn.NewUser →
      len f.username > 4 ∧ len f.credentialsFile > 4 ∧ len f.profile > 4) ∧
      a.fn ∉ deployDestroyFns := by
    intro a ha
    cases hw : f.wizard with
    | true =>
      rw [main_wizard w f hw] at ha
      split_ifs at ha <;> simp at ha <;> rcases ha with rfl | rfl <;>
        simp [deployDestroyFns]
    | false =>
      cases hn : f.newDeploy with
      | true =>
        have hfn := main_newDeploy_fns w f hw hn a ha
        simp only [List.mem_cons, List.mem_singleton, List.mem_nil_iff, or_false] at hfn
        rcases hfn with h | h | h | h | h | h | h <;> simp [h, deployDestroyFns]
      | false =>
        rw [main_createuser w f hc hw hn] at ha
        split_ifs at ha with h1 h2 h3 <;> simp at ha
        · subst ha
          exact ⟨fun _ => ⟨h1, h2, h3⟩, by simp [deployDestroyFns]⟩
        · rcases ha with rfl | rfl | rfl <;> simp [deployDestroyFns]
        · rcases ha with rfl | rfl | rfl <;> simp [deployDestroyFns]
        · rcases ha with rfl | rfl | rfl <;> simp [deployDestroyFns]
  refine ⟨main_createuser w f hc, ?_, fun a ha => (key a ha).1, ?_, fun a ha => (key a ha).2⟩
  · intro hw hn
    rw [main_createuser w f hc hw hn]
    by_cases h1 : len f.username > 4 <;> by_cases h2 : len f.credentialsFile > 4 <;>
      by_cases h3 : len f.profile > 4 <;> simp [h1, h2, h3]
  · intro he a ha hfn
    have hl := (key a ha).1 hfn
    have e : len "" = 0 := rfl
    rcases he with he | he | he <;> rw [he, e] at hl <;> omega

/-- Non-vacuity of C6: with `-create_user -username alice -profile sgt-admin` and the
default credentials file the user is created. -/
theorem create_user_guarded_witness :
    main ⟨["sgt"], "", "/srv", false, fun _ => false, true, true⟩
        { Flags.default with createuser := true, username := "alice", profile := "sgt-admin" } =
      ⟨[⟨Fn.NewUser, ["~/.aws/credentials", "sgt-admin", "alice", "user"]⟩], some ()⟩ :=
  ((create_user_guarded ⟨["sgt"], "", "/srv", false, fun _ => false, true, true⟩
      { Flags.default with createuser := true, username := "alice", profile := "sgt-admin" }
      rfl).1 rfl rfl).trans (by decide)

/-- C7 fails on the code: the name `main()` hands to `deploy.CreateDeployDirectory` is
`os.Args[0]`, the name of the program. Run as `./sgt -new-deployment`, with `prod` waiting
on standard input, it creates the deployment directory `./sgt` and neither prompts nor
reads; run as `./sgt -new-deployment prod` it does the same. -/
theorem new_deployment_uses_program_name :
    main ⟨["./sgt", "-new-deployment"], "prod\n", "/srv", false, fun _ => false, true, true⟩
        { Flags.default with newDeploy := true } =
      ⟨[⟨Fn.CreateDeployDirectory, ["./sgt"]⟩,
        ⟨Fn.loggerWarn, ["New deployment created.  Remember to go change the defaults in your $environment.json files!"]⟩],
        some ()⟩ ∧
    main ⟨["./sgt", "-new-deployment", "prod"], "", "/srv", false, fun _ => false, true, true⟩
        { Flags.default with newDeploy := true } =
      ⟨[⟨Fn.CreateDeployDirectory, ["./sgt"]⟩,
        ⟨Fn.loggerWarn, ["New deployment created.  Remember to go change the defaults in your $environment.json files!"]⟩],
        some ()⟩ := by
  decide

/-- With `-destroy` reached, `-all` and the seven component flags give the same run. -/
theorem main_destroy_all_eq (w : World) (f : Flags) (hw : f.wizard = false)
    (hn : f.newDeploy = false) (hc : f.createuser = false) (hd : f.deployFlag = false)
    (hx : f.destroy = true) :
    main w f.setAll = main w f.setComponents := by
  simp [main, Flags.setAll, Flags.setComponents, hw, hn, hc, hd, hx]

/-- The destroy calls of a run with `-destroy -all`, when `logger.Fatal` ends the process
and `deploy.ErrorCheck` lets the run go on. -/
theorem main_destroy_all_calls (w : World) (f : Flags) (hw : f.wizard = false)
    (hn : f.newDeploy = false) (hc : f.createuser = false) (hd : f.deployFlag = false)
    (hx : f.destroy = true) (hf : w.fatalExits = true)
    (hg : w.getwdErr = false ∨ w.errorCheckExits = false) :
    destroyCalls (main w f.setAll) = upToFirstError w.fails destroyFns := by
  have he : ¬ (w.getwdErr = true ∧ w.errorCheckExits = true) := by
    rcases hg with h | h <;> simp [h]
  by_cases h1 : w.fails Fn.DestroyAutoscaling = true
  · simp [main, Flags.setAll, hw, hn, hc, hd, hx, hf, he, h1,
      Run.bind_eq, Run.pure_eq, Run.bind, Run.pure, callErr, loggerFatal, osGetwd,
      ErrorCheck, destroyCalls, upToFirstError, destroyFns]
  ·
    by_cases h2 : w.fails Fn.DestroySecrets = true
    · simp [main, Flags.setAll, hw, hn, hc, hd, hx, hf, he, h1, h2,
        Run.bind_eq, Run.pure_eq, Run.bind, Run.pure, callErr, loggerFatal, osGetwd,
        ErrorCheck, destroyCalls, upToFirstError, destroyFns]
    ·
      by_cases h3 : w.fails Fn.DestroyS3 = true
      · simp [main, Flags.setAll, hw, hn, hc, hd, hx, hf, he, h1, h2, h3,
          Run.bind_eq, Run.pure_eq, Run.bind, Run.pure, callErr, loggerFatal, osGetwd,
          ErrorCheck, destroyCalls, upToFirstError, destroyFns]
      ·
        by_cases h4 : w.fails Fn.DestroyFirehose = true
        · simp [main, Flags.setAll, hw, hn, hc, hd, hx, hf, he, h1, h2, h3, h4,
            Run.bind_eq, Run.pure_eq, Run.bind, Run.pure, callErr, loggerFatal, osGetwd,
            ErrorCheck, destroyCalls, upToFirstError, destroyFns]
        ·
          by_cases h5 : w.fails Fn.DestroyElasticsearch = true
          · simp [main, Flags.setAll, hw, hn, hc, hd, hx, hf, he, h1, h2, h3, h4, h5,
              Run.bind_eq, Run.pure_eq, Run.bind, Run.pure, callErr, loggerFatal, osGetwd,
              ErrorCheck, destroyCalls, upToFirstError, destroyFns]
          ·
            by_cases h6 : w.fails Fn.DestroyDatastore = true
            · simp [main, Flags.setAll, hw, hn, hc, hd, hx, hf, he, h1, h2, h3, h4, h5, h6,
                Run.bind_eq, Run.pure_eq, Run.bind, Run.pure, callErr, loggerFatal, osGetwd,
                ErrorCheck, destroyCalls, upToFirstError, destroyFns]
            ·
              by_cases h7 : w.fails Fn.DestroyVPC = true
              · simp [main, Flags.setAll, hw, hn, hc, hd, hx, hf, he, h1, h2, h3, h4, h5, h6, h7,
                  Run.bind_eq, Run.pure_eq, Run.bind, Run.pure, callErr, loggerFatal, osGetwd,
                  ErrorCheck, destroyCalls, upToFirstError, destroyFns]
              · simp [main, Flags.setAll, hw, hn, hc, hd, hx, hf, he, h1, h2, h3, h4, h5, h6, h7,
                  Run.bind_eq, Run.pure_eq, Run.bind, Run.pure, callErr, loggerFatal, osGetwd,
                  ErrorCheck, destroyCalls, upToFirstError, destroyFns]

/-- C8, as stated, fails: `-destroy -all` together with `-deploy` makes no destroy call at
all, although no call returns an error; the run is the one of `-deploy -all`. The same
holds with `-create_user` in place of `-deploy`. -/
theorem destroy_all_with_deploy_destroys_nothing :
    destroyCalls (main ⟨["sgt"], "", "/srv", false, fun _ => false, true, true⟩
        { Flags.default with destroy := true, all := true, deployFlag := true }) = [] ∧
      (main ⟨["sgt"], "", "/srv", false, fun _ => false, true, true⟩
        { Flags.default with destroy := true, all := true, deployFlag := true }).trace.map
          Action.fn =
        [Fn.logPrintf, Fn.logPrintf, Fn.osGetwd, Fn.ErrorCheck, Fn.ParseDeploymentConfig,
          Fn.DeployAll] ∧
      upToFirstError (fun _ => false) destroyFns = destroyFns ∧
      destroyCalls (main ⟨["sgt"], "", "/srv", false, fun _ => false, true, true⟩
        { Flags.default with destroy := true, all := true, createuser := true }) = [] := by
  decide

/-- C8, amended: with `-destroy` set and none of `-wizard`, `-new-deployment`,
`-create_user` and `-deploy`, the run with `-all` is, for every setting of the component
flags, the same run as without `-all` and with the seven component flags set; and when
`logger.Fatal` ends the process and the working directory was obtained, the destroy calls
of both are `DestroyAutoscaling`, `DestroySecrets`, `DestroyS3`, `DestroyFirehose`,
`DestroyElasticsearch`, `DestroyDatastore`, `DestroyVPC`, stopping at the first call that
returns an error. -/
theorem destroy_all_is_all_components (w : World) (f : Flags) (hw : f.wizard = false)
    (hn : f.newDeploy = false) (hc : f.createuser = false) (hd : f.deployFlag = false)
    (hx : f.destroy = true) :
    main w f.setAll = main w f.setComponents ∧
    (w.fatalExits = true → (w.getwdErr = false ∨ w.errorCheckExits = false) →
      destroyCalls (main w f.setAll) = upToFirstError w.fails destroyFns ∧
      destroyCalls (main w f.setComponents) = upToFirstError w.fails destroyFns) := by
  have he := main_destroy_all_eq w f hw hn hc hd hx
  refine ⟨he, fun hf hg => ?_⟩
  have hs := main_destroy_all_calls w f hw hn hc hd hx hf hg
  exact ⟨hs, he ▸ hs⟩

/-- Non-vacuity of the amended C8: `-destroy -all` where destroying the firehose fails
makes the first four destroy calls. -/
theorem destroy_all_is_all_components_witness :
    destroyCalls (main
        ⟨["sgt"], "", "/srv", false, fun fn => decide (fn = Fn.DestroyFirehose), true, true⟩
        ({ Flags.default with destroy := true } : Flags).setAll) =
      [Fn.DestroyAutoscaling, Fn.DestroySecrets, Fn.DestroyS3, Fn.DestroyFirehose] :=
  (((destroy_all_is_all_components
      ⟨["sgt"], "", "/srv", false, fun fn => decide (fn = Fn.DestroyFirehose), true, true⟩
      { Flags.default with destroy := true } rfl rfl rfl rfl rfl).2 rfl (Or.inl rfl)).1).trans
    (by decide)

/-! ## Facts about the campaign manager -/

theorem find?_map_pres {α : Type} (f : α → α) (p : α → Bool) (h : ∀ x, p (f x) = p x)
    (l : List α) : (l.map f).find? p = (l.find? p).map f := by
  induction l with
  | nil => rfl
  | cons a l ih =>
    simp only [List.map_cons, List.find?_cons, h]
    cases p a
    · exact ih
    · rfl

theorem findCampaign_id {s : Coordinator} {cid : Nat} {c : Campaign}
    (h : findCampaign s cid = some c) : c.campaign_id = cid := by
  have := List.find?_some h
  simpa using this

theorem findTarget_id {c : Campaign} {nid : Nat} {t : CampaignTarget}
    (h : findTarget c nid = some t) : t.node_id = nid := by
  have := List.find?_some h
  simpa using this

theorem findCampaign_map (cs : List Campaign) (rs rs' : List ResultRow) (f : Campaign → Campaign)
    (hf : ∀ c, (f c).campaign_id = c.campaign_id) (cid : Nat) :
    findCampaign ⟨cs.map f, rs'⟩ cid = (findCampaign ⟨cs, rs⟩ cid).map f := by
  unfold findCampaign
  exact find?_map_pres f _ (fun c => by simp [hf]) cs

theorem findTarget_map (c : Campaign) (g : CampaignTarget → CampaignTarget)
    (hg : ∀ t, (g t).node_id = t.node_id) (nid : Nat) :
    findTarget { c with targets := c.targets.map g } nid = (findTarget c nid).map g := by
  unfold findTarget
  exact find?_map_pres g _ (fun t => by simp [hg]) c.targets

theorem completionCheck_campaign_id (c : Campaign) :
    (completionCheck c).campaign_id = c.campaign_id := by
  unfold completionCheck
  split_ifs <;> rfl

theorem findTarget_completionCheck (c : Campaign) (nid : Nat) :
    findTarget (completionCheck c) nid = findTarget c nid := by
  unfold completionCheck
  split_ifs <;> rfl

/-- An operation that leaves the rows alone, and the campaigns' ids and the targets'
`result_received_at` as they are, keeps the invariant. -/
theorem RowsAgree_map (s : Coordinator) (f : Campaign → Campaign)
    (hid : ∀ c, (f c).campaign_id = c.campaign_id)
    (hrec : ∀ c nid t', findTarget (f c) nid = some t' →
      ∃ t, findTarget c nid = some t ∧ t.result_received_at = t'.result_received_at)
    (h : RowsAgree s) : RowsAgree ⟨s.campaigns.map f, s.results⟩ := by
  refine ⟨h.1, ?_⟩
  intro cid nid c' t' hc ht hr
  rw [findCampaign_map s.campaigns s.results s.results f hid cid] at hc
  rcases Option.map_eq_some'.mp hc with ⟨c, hc0, rfl⟩
  rcases hrec c nid t' ht with ⟨t, ht0, hrt⟩
  exact h.2 cid nid c t hc0 ht0 (by rw [hrt]; exact hr)

theorem RowsAgree_empty : RowsAgree Coordinator.empty :=
  ⟨fun _ _ => by simp [ReadResults, Coordinator.empty],
    fun _ _ _ _ hc => by simp [findCampaign, Coordinator.empty] at hc⟩

theorem RowsAgree_PollForNode (s : Coordinator) (now nid : Nat) (h : RowsAgree s) :
    RowsAgree (PollForNode s now nid).2 := by
  apply RowsAgree_map s _ _ _ h
  · intro c
    split_ifs <;> rfl
  · intro c n t' ht
    split_ifs at ht with hp
    · rw [findTarget_map c _ (fun t => by split_ifs <;> rfl) n] at ht
      rcases Option.map_eq_some'.mp ht with ⟨t, ht0, rfl⟩
      exact ⟨t, ht0, by split_ifs <;> rfl⟩
    · exact ⟨t', ht, rfl⟩

theorem RowsAgree_CloseCampaign (s : Coordinator) (cid : Nat) (h : RowsAgree s) :
    RowsAgree (CloseCampaign s cid) := by
  apply RowsAgree_map s _ _ _ h
  · intro c
    split_ifs <;> rfl
  · intro c n t' ht
    split_ifs at ht with hp
    · exact ⟨t', ht, rfl⟩
    · exact ⟨t', ht, rfl⟩

theorem RowsAgree_MarkUnreachable (s : Coordinator) (cid nid : Nat) (h : RowsAgree s) :
    RowsAgree (MarkUnreachable s cid nid) := by
  apply RowsAgree_map s _ _ _ h
  · intro c
    split_ifs
    · rw [completionCheck_campaign_id]
    · rfl
  · intro c n t' ht
    split_ifs at ht with hp
    · rw [findTarget_completionCheck,
        findTarget_map c _ (fun t => by split_ifs <;> rfl) n] at ht
      rcases Option.map_eq_some'.mp ht with ⟨t, ht0, rfl⟩
      exact ⟨t, ht0, by split_ifs <;> rfl⟩
    · exact ⟨t', ht, rfl⟩

theorem RowsAgree_CreateCampaign (s : Coordinator) (now : Nat) (q : String) (ts : List Nat)
    (by_ : String) (h : RowsAgree s) : RowsAgree (CreateCampaign s now q ts by_).2 := by
  unfold CreateCampaign
  split_ifs with h1 h2
  · exact h
  · exact h
  · refine ⟨h.1, ?_⟩
    intro cid nid c t hc ht hr
    simp only [findCampaign, List.find?_append] at hc
    cases hold : s.campaigns.find? (fun c => c.campaign_id == cid) with
    | some c0 =>
      rw [hold] at hc
      simp only [Option.or, Option.some.injEq] at hc
      subst hc
      exact h.2 cid nid c0 t hold ht hr
    | none =>
      rw [hold] at hc
      simp only [Option.or, List.find?_cons] at hc
      split at hc
      · simp only [Option.some.injEq] at hc
        subst hc
        exfalso
        have hm := List.mem_of_find?_eq_some ht
        simp only [List.mem_map] at hm
        rcases hm with ⟨n, _, rfl⟩
        exact hr rfl
      · simp at hc

theorem Store_filter_le (rs : List ResultRow) (cid nid : Nat)
    (rows : List (List (String × String))) (now : Nat) (p : ResultRow → Bool) :
    (rs.filter p).length ≤ ((Store rs cid nid rows now).filter p).length := by
  unfold Store
  split_ifs
  · exact le_rfl
  · rw [List.filter_append, List.length_append]
    exact Nat.le_add_right _ _

theorem Store_filter_self (rs : List ResultRow) (cid nid : Nat)
    (rows : List (List (String × String))) (now : Nat) :
    1 ≤ ((Store rs cid nid rows now).filter
      (fun r => r.campaign_id == cid && r.node_id == nid)).length := by
  unfold Store
  split_ifs with h
  · rcases List.any_eq_true.mp h with ⟨r, hr, hp⟩
    exact List.length_pos_of_mem (List.mem_filter.mpr ⟨hr, hp⟩)
  · rw [List.filter_append, List.length_append]
    simp

theorem Store_filter_le_one (rs : List ResultRow) (cid nid : Nat)
    (rows : List (List (String × String))) (now : Nat)
    (h : ∀ c n, (rs.filter (fun r => r.campaign_id == c && r.node_id == n)).length ≤ 1)
    (c n : Nat) :
    ((Store rs cid nid rows now).filter
      (fun r => r.campaign_id == c && r.node_id == n)).length ≤ 1 := by
  unfold Store
  split_ifs with hany
  · exact h c n
  · rw [List.filter_append, List.length_append]
    by_cases hcn : cid = c ∧ nid = n
    · rcases hcn with ⟨rfl, rfl⟩
      have h0 : rs.filter (fun r => r.campaign_id == cid && r.node_id == nid) = [] := by
        rw [List.filter_eq_nil_iff]
        intro r hr hp
        exact hany (List.any_eq_true.mpr ⟨r, hr, hp⟩)
      rw [h0]
      simp
    · have h1 : List.filter (fun r => r.campaign_id == c && r.node_id == n)
          [(⟨cid, nid, rows, now⟩ : ResultRow)] = [] := by
        rw [List.filter_eq_nil_iff]
        intro r hr hp
        rw [List.mem_singleton] at hr
        subst hr
        simp only [Bool.and_eq_true, beq_iff_eq] at hp
        exact hcn hp
      rw [h1]
      exact h c n

theorem markReceived_campaign_id (now cid nid : Nat) (c : Campaign) :
    (markReceived now cid nid c).campaign_id = c.campaign_id := by
  unfold markReceived
  split_ifs
  · rw [completionCheck_campaign_id]
  · rfl

/-- The target of a campaign after `markReceived`. -/
theorem findTarget_markReceived (now cid nid : Nat) (c : Campaign) (n : Nat) :
    findTarget (markReceived now cid nid c) n =
      if c.campaign_id = cid then
        (findTarget c n).map (fun t =>
          if t.node_id = nid then { t with result_received_at := some now } else t)
      else findTarget c n := by
  unfold markReceived
  split_ifs
  · rw [findTarget_completionCheck, findTarget_map c _ (fun t => by split_ifs <;> rfl) n]
  · rfl

theorem RowsAgree_accept (s : Coordinator) (now cid nid : Nat)
    (rows : List (List (String × String))) (h : RowsAgree s) :
    RowsAgree ⟨s.campaigns.map (markReceived now cid nid), Store s.results cid nid rows now⟩ := by
  have hR := Store_filter_le_one s.results cid nid rows now h.1
  refine ⟨hR, ?_⟩
  intro cid' nid' c' t' hc ht hr
  have hle := hR cid' nid'
  show (List.filter _ (Store s.results cid nid rows now)).length = 1
  rw [findCampaign_map s.campaigns s.results _ _ (markReceived_campaign_id now cid nid) cid'] at hc
  rcases Option.map_eq_some'.mp hc with ⟨c0, hc0, rfl⟩
  have hid := findCampaign_id hc0
  rw [findTarget_markReceived] at ht
  have hold : ∀ t0, findTarget c0 nid' = some t0 → t0.result_received_at ≠ none →
      (List.filter (fun r => r.campaign_id == cid' && r.node_id == nid')
        (Store s.results cid nid rows now)).length = 1 := by
    intro t0 ht0 hr0
    have h1 := h.2 cid' nid' c0 t0 hc0 ht0 hr0
    have h2 := Store_filter_le s.results cid nid rows now
      (fun r => r.campaign_id == cid' && r.node_id == nid')
    unfold ReadResults at h1
    omega
  split_ifs at ht with hcid
  · rcases Option.map_eq_some'.mp ht with ⟨t0, ht0, rfl⟩
    by_cases hn : t0.node_id = nid
    · have hn' := findTarget_id ht0
      have e1 : cid' = cid := by rw [← hid, hcid]
      have e2 : nid' = nid := by rw [← hn', hn]
      subst e1 e2
      have := Store_filter_self s.results cid' nid' rows now
      omega
    · rw [if_neg hn] at hr
      exact hold t0 ht0 hr
  · exact hold t' ht hr

theorem RowsAgree_SubmitResult (s : Coordinator) (now cid nid : Nat)
    (rows : List (List (String × String))) (h : RowsAgree s) :
    RowsAgree (SubmitResult s now cid nid rows).2 := by
  unfold SubmitResult
  split
  · exact h
  · split
    · exact h
    · split
      · exact h
      · split
        · exact h
        · exact RowsAgree_accept s now cid nid rows h

theorem RowsAgree_apply (s : Coordinator) (op : Op) (h : RowsAgree s) :
    RowsAgree (s.apply op) := by
  cases op with
  | CreateCampaign now q ts by_ => exact RowsAgree_CreateCampaign s now q ts by_ h
  | PollForNode now nid => exact RowsAgree_PollForNode s now nid h
  | SubmitResult now cid nid rows => exact RowsAgree_SubmitResult s now cid nid rows h
  | CloseCampaign cid => exact RowsAgree_CloseCampaign s cid h
  | MarkUnreachable cid nid => exact RowsAgree_MarkUnreachable s cid nid h

theorem RowsAgree_foldl (ops : List Op) (s : Coordinator) (h : RowsAgree s) :
    RowsAgree (ops.foldl Coordinator.apply s) := by
  induction ops generalizing s with
  | nil => exact h
  | cons op ops ih => exact ih _ (RowsAgree_apply s op h)

/-- Every store reached from the empty one satisfies the invariant. -/
theorem RowsAgree_after (ops : List Op) : RowsAgree (Coordinator.after ops) :=
  RowsAgree_foldl ops _ RowsAgree_empty

theorem SubmitResult_received (s : Coordinator) (now cid nid : Nat)
    (rows : List (List (String × String))) (c : Campaign) (t : CampaignTarget)
    (hc : findCampaign s cid = some c) (ht : findTarget c nid = some t)
    (hd : t.delivered_at ≠ none) (hr : t.result_received_at ≠ none) :
    SubmitResult s now cid nid rows = (Except.ok Ack.AlreadyReceived, s) := by
  rcases Option.ne_none_iff_exists'.mp hd with ⟨d, hd'⟩
  rcases Option.ne_none_iff_exists'.mp hr with ⟨r, hr'⟩
  unfold SubmitResult
  simp only [hc, ht, hd', hr']

theorem SubmitResult_first (s : Coordinator) (now cid nid : Nat)
    (rows : List (List (String × String))) (c : Campaign) (t : CampaignTarget)
    (hc : findCampaign s cid = some c) (ht : findTarget c nid = some t)
    (hd : t.delivered_at ≠ none) (hr : t.result_received_at = none) :
    SubmitResult s now cid nid rows =
      (Except.ok Ack.Accepted,
        ⟨s.campaigns.map (markReceived now cid nid), Store s.results cid nid rows now⟩) := by
  rcases Option.ne_none_iff_exists'.mp hd with ⟨d, hd'⟩
  unfold SubmitResult
  simp only [hc, ht, hd', hr]

/-- C5, as stated, fails on the specified campaign manager: for a target the campaign was
not yet delivered to, both submissions are rejected with `NotDelivered` and no row is
stored. -/
theorem undelivered_result_rejected_both_times :
    (SubmitResult (Coordinator.after [Op.CreateCampaign 1 "SELECT 1" [7] "operator"])
        2 0 7 [[("1", "1")]]).1 = Except.error SubmitError.NotDelivered ∧
      (SubmitResult
        (SubmitResult (Coordinator.after [Op.CreateCampaign 1 "SELECT 1" [7] "operator"])
          2 0 7 [[("1", "1")]]).2 3 0 7 [[("1", "1")]]).1 =
        Except.error SubmitError.NotDelivered ∧
      ReadResults
        (SubmitResult
          (SubmitResult (Coordinator.after [Op.CreateCampaign 1 "SELECT 1" [7] "operator"])
            2 0 7 [[("1", "1")]]).2 3 0 7 [[("1", "1")]]).2 0 7 = [] := by
  decide

/-- C5, amended: in every store reached from the empty one, for every campaign and every
target node the campaign has been delivered to, submitting the same result twice is
accepted both times, the second time with the signal `AlreadyReceived` and without any
change of the store, and leaves exactly one stored result row for that campaign and
node. -/
theorem SubmitResult_twice (ops : List Op) (now1 now2 cid nid : Nat)
    (rows : List (List (String × String))) (c : Campaign) (t : CampaignTarget)
    (hc : findCampaign (Coordinator.after ops) cid = some c)
    (ht : findTarget c nid = some t) (hd : t.delivered_at ≠ none) :
    ((SubmitResult (Coordinator.after ops) now1 cid nid rows).1 = Except.ok Ack.Accepted ∨
      (SubmitResult (Coordinator.after ops) now1 cid nid rows).1 =
        Except.ok Ack.AlreadyReceived) ∧
    (SubmitResult (SubmitResult (Coordinator.after ops) now1 cid nid rows).2
      now2 cid nid rows).1 = Except.ok Ack.AlreadyReceived ∧
    (SubmitResult (SubmitResult (Coordinator.after ops) now1 cid nid rows).2
      now2 cid nid rows).2 = (SubmitResult (Coordinator.after ops) now1 cid nid rows).2 ∧
    (ReadResults (SubmitResult (SubmitResult (Coordinator.after ops) now1 cid nid rows).2
      now2 cid nid rows).2 cid nid).length = 1 := by
  have hJ := RowsAgree_after ops
  cases hr : t.result_received_at with
  | some r =>
    have hr' : t.result_received_at ≠ none := by rw [hr]; exact Option.some_ne_none r
    have e1 := SubmitResult_received _ now1 cid nid rows c t hc ht hd hr'
    have e2 := SubmitResult_received _ now2 cid nid rows c t hc ht hd hr'
    rw [e1, e2]
    exact ⟨Or.inr rfl, rfl, rfl, hJ.2 cid nid c t hc ht hr'⟩
  | none =>
    have e1 := SubmitResult_first _ now1 cid nid rows c t hc ht hd hr
    have hJ1 := RowsAgree_accept _ now1 cid nid rows hJ
    have hc1 : findCampaign ⟨(Coordinator.after ops).campaigns.map (markReceived now1 cid nid),
        Store (Coordinator.after ops).results cid nid rows now1⟩ cid =
        some (markReceived now1 cid nid c) := by
      rw [findCampaign_map _ (Coordinator.after ops).results _ _
        (markReceived_campaign_id now1 cid nid) cid]
      show Option.map _ (findCampaign (Coordinator.after ops) cid) = _
      rw [hc]
      rfl
    have ht1 : findTarget (markReceived now1 cid nid c) nid =
        some { t with result_received_at := some now1 } := by
      rw [findTarget_markReceived, if_pos (findCampaign_id hc), ht, Option.map_some',
        if_pos (findTarget_id ht)]
    have e2 := SubmitResult_received _ now2 cid nid rows _ _ hc1 ht1 hd
      (Option.some_ne_none now1)
    rw [e1, e2]
    exact ⟨Or.inl rfl, rfl, rfl,
      hJ1.2 cid nid _ _ hc1 ht1 (Option.some_ne_none now1)⟩

/-- Non-vacuity of the amended C5: campaign 0 is created for node 7 and delivered to it;
the result submitted twice is stored once. -/
theorem SubmitResult_twice_witness :
    (ReadResults (SubmitResult (SubmitResult
        (Coordinator.after [Op.CreateCampaign 1 "SELECT 1" [7] "operator", Op.PollForNode 2 7])
        3 0 7 [[("1", "1")]]).2 4 0 7 [[("1", "1")]]).2 0 7).length = 1 :=
  (SubmitResult_twice [Op.CreateCampaign 1 "SELECT 1" [7] "operator", Op.PollForNode 2 7]
    3 4 0 7 [[("1", "1")]]
    ⟨0, "SELECT 1", "operator", 1, CampaignStatus.Active, [⟨7, some 2, none, false⟩]⟩
    ⟨7, some 2, none, false⟩ (by decide) (by decide) (by decide)).2.2.2

end Sgt
